import Mathlib

/-!
# Snake (Picoware) — a shallow embedding of `applications/games/snake/game.cpp`

The game keeps one mutable `GameState`; every function of the source that reads or
writes it is embedded as a pure function from the state (and the values the function
reads from outside: the pressed button, the millisecond clock, the draws of `rand()`)
to the new state.

Conventions of the embedding:

* `int` fields (`score`, `lives`, `length`, `level`, `foodEaten`) are `Int`; signed
  overflow is undefined behaviour in the source and lies outside the model.
* `uint32_t` fields (`lastMove`, `moveSpeed`) are `Nat`, and every subtraction on them is
  taken modulo `2^32` (`sub32`).
* `segments[MAX_SNAKE_LENGTH]` is a list of exactly 100 cells; a read outside `0..99`
  yields a blank cell and a write outside `0..99` writes nothing (both are undefined
  behaviour in the source).
* `rand()` is a stream `Nat → Nat` of non-negative draws; the `k`-th call made during one
  top-level call reads `rng k`.
* the functions are applied to an existing state, so the `!gameState` guards never fire.
-/

namespace Snake

/-! ## Constants (`#define`s of game.cpp) -/

abbrev SCREEN_SIZE_X : Int := 320
abbrev SCREEN_SIZE_Y : Int := 240
abbrev SNAKE_SEGMENT_SIZE : Int := 8
abbrev MAX_SNAKE_LENGTH : Nat := 100
abbrev INITIAL_SPEED : Nat := 200
abbrev SPEED_INCREASE : Nat := 10
abbrev MIN_SPEED : Nat := 50

/-- Values that game.cpp takes from headers outside these sources
(`system/buttons.hpp`, `system/colors.hpp`): the four direction button codes that
`game->input` is compared with, and the colour `TFT_RED`. They are parameters of the
model; "no input" is the literal `-1` of the source. -/
structure Env where
  BUTTON_UP : Int
  BUTTON_DOWN : Int
  BUTTON_LEFT : Int
  BUTTON_RIGHT : Int
  TFT_RED : Nat
  deriving DecidableEq, Repr

/-- The button codes are four different codes, none of them the "no input" code. -/
abbrev Env.distinct (E : Env) : Prop :=
  E.BUTTON_UP ≠ E.BUTTON_DOWN ∧ E.BUTTON_UP ≠ E.BUTTON_LEFT ∧ E.BUTTON_UP ≠ E.BUTTON_RIGHT ∧
  E.BUTTON_DOWN ≠ E.BUTTON_LEFT ∧ E.BUTTON_DOWN ≠ E.BUTTON_RIGHT ∧
  E.BUTTON_LEFT ≠ E.BUTTON_RIGHT ∧
  E.BUTTON_UP ≠ -1 ∧ E.BUTTON_DOWN ≠ -1 ∧ E.BUTTON_LEFT ≠ -1 ∧ E.BUTTON_RIGHT ≠ -1

/-! ## Data model -/

inductive Direction where
  | DIR_UP
  | DIR_DOWN
  | DIR_LEFT
  | DIR_RIGHT
  deriving DecidableEq, Repr

open Direction

/-- Modelled from the spec: the engine's `Vector` class is declared outside these
sources; the spec calls a position a "grid-aligned 2D coordinate". Coordinates are
integers here (every value the game computes is a small integer). -/
structure Vector where
  x : Int
  y : Int
  deriving DecidableEq, Repr

structure SnakeSegment where
  position : Vector
  active : Bool
  deriving DecidableEq, Repr

structure Food where
  position : Vector
  active : Bool
  color : Nat
  deriving DecidableEq, Repr

/-- The array `SnakeSegment segments[MAX_SNAKE_LENGTH]`: exactly 100 cells. -/
structure Segments where
  cells : List SnakeSegment
  size : cells.length = MAX_SNAKE_LENGTH
  deriving DecidableEq

/-- The `GameState` struct. `player` is the `Entity*` pointer, kept as an address. -/
structure GameState where
  score : Int
  lives : Int
  gameOver : Bool
  gameWon : Bool
  direction : Direction
  nextDirection : Direction
  segments : Segments
  length : Int
  food : Food
  lastMove : Nat
  moveSpeed : Nat
  player : Nat
  level : Int
  foodEaten : Int
  deriving DecidableEq

/-! ## Array access and 32-bit arithmetic -/

/-- The read `segments[i]`. -/
def segAt (segs : Segments) (i : Nat) : SnakeSegment :=
  segs.cells.getD i ⟨⟨0, 0⟩, false⟩

/-- The write `segments[i] = v`. -/
def setSeg (segs : Segments) (i : Nat) (v : SnakeSegment) : Segments :=
  ⟨segs.cells.set i v, by rw [List.length_set]; exact segs.size⟩

/-- The write `segments[i].position = p`. -/
def setPos (segs : Segments) (i : Nat) (p : Vector) : Segments :=
  setSeg segs i { segAt segs i with position := p }

/-- The write `segments[i].active = b`. -/
def setActive (segs : Segments) (i : Nat) (b : Bool) : Segments :=
  setSeg segs i { segAt segs i with active := b }

/-- Subtraction of two `uint32_t` values: `a - b` modulo `2^32`. -/
def sub32 (a b : Nat) : Nat :=
  (((a : Int) - (b : Int)) % 4294967296).toNat

/-! ## spawn_food -/

/-- The inner `for` loop of `spawn_food`: does some `segments[i]`, `0 ≤ i < length`,
sit at `p`? (`validPosition` is the negation.) -/
def hitsSnake (s : GameState) (p : Vector) : Bool :=
  (List.range s.length.toNat).any fun i =>
    (segAt s.segments i).position.x == p.x && (segAt s.segments i).position.y == p.y

/-- The candidate of attempt number `attempts` (counted from 0): the two draws it
consumes are draws `2 * attempts` and `2 * attempts + 1` of the call. -/
def foodCandidate (rng : Nat → Nat) (attempts : Nat) : Vector :=
  { x := ((rng (2 * attempts) : Int) % (SCREEN_SIZE_X / SNAKE_SEGMENT_SIZE)) * SNAKE_SEGMENT_SIZE,
    y := ((rng (2 * attempts + 1) : Int) % (SCREEN_SIZE_Y / SNAKE_SEGMENT_SIZE)) * SNAKE_SEGMENT_SIZE }

/-- The `while (!validPosition && attempts < 100)` loop of `spawn_food`, run for at most
`fuel` iterations; it returns the final `newPos` and `attempts`. Every iteration
increments `attempts`, so fuel 100 lets the loop run to its own exit. -/
def spawn_food_loop (s : GameState) (rng : Nat → Nat) :
    Nat → Bool → Vector → Nat → Vector × Nat
  | 0, _, newPos, attempts => (newPos, attempts)
  | fuel + 1, validPosition, newPos, attempts =>
    if !validPosition && decide (attempts < 100) then
      let newPos := foodCandidate rng attempts
      let validPosition := !hitsSnake s newPos
      spawn_food_loop s rng fuel validPosition newPos (attempts + 1)
    else (newPos, attempts)

/-- The position and the number of attempts `spawn_food` ends with. -/
def spawn_food_result (s : GameState) (rng : Nat → Nat) : Vector × Nat :=
  spawn_food_loop s rng 100 false ⟨0, 0⟩ 0

def spawn_food (E : Env) (s : GameState) (rng : Nat → Nat) : GameState :=
  { s with food := { position := (spawn_food_result s rng).1, active := true, color := E.TFT_RED } }

/-- Number of `rand()` calls one `spawn_food` makes: two per attempt. -/
def spawn_food_draws (s : GameState) (rng : Nat → Nat) : Nat :=
  2 * (spawn_food_result s rng).2

/-! ## init_snake, reset_game -/

/-- First loop of `init_snake`, iterations `i = from, from+1, …` (`n` of them). -/
def init_body (startX startY : Int) : Nat → Nat → Segments → Segments
  | 0, _, segs => segs
  | n + 1, i, segs =>
    init_body startX startY n (i + 1)
      (setSeg segs i { position := ⟨startX - (i : Int) * SNAKE_SEGMENT_SIZE, startY⟩, active := true })

/-- Second loop of `init_snake` ("clear remaining segments"), `n` iterations from `i`. -/
def clear_rest : Nat → Nat → Segments → Segments
  | 0, _, segs => segs
  | n + 1, i, segs => clear_rest n (i + 1) (setActive segs i false)

def init_snake (s : GameState) : GameState :=
  let length : Int := 3
  let startX : Int := (SCREEN_SIZE_X / 2) - (SNAKE_SEGMENT_SIZE * 2)
  let startY : Int := SCREEN_SIZE_Y / 2
  let segs := init_body startX startY length.toNat 0 s.segments
  let segs := clear_rest (MAX_SNAKE_LENGTH - length.toNat) length.toNat segs
  { s with length := length, direction := DIR_RIGHT, nextDirection := DIR_RIGHT, segments := segs }

/-- The eight field assignments at the top of `reset_game`. -/
def reset_fields (s : GameState) : GameState :=
  { s with score := 0, lives := 3, gameOver := false, gameWon := false, lastMove := 0,
           moveSpeed := INITIAL_SPEED, level := 1, foodEaten := 0 }

def reset_game (E : Env) (s : GameState) (rng : Nat → Nat) : GameState :=
  spawn_food E (init_snake (reset_fields s)) rng

/-- Number of `rand()` calls one `reset_game` makes (those of its `spawn_food`). -/
def reset_game_draws (s : GameState) (rng : Nat → Nat) : Nat :=
  spawn_food_draws (init_snake (reset_fields s)) rng

/-! ## Collisions -/

def check_collision_with_walls (pos : Vector) : Bool :=
  decide (pos.x < 0) || decide (pos.x ≥ SCREEN_SIZE_X) ||
  decide (pos.y < 0) || decide (pos.y ≥ SCREEN_SIZE_Y)

/-- The loop `for (i = 1; i < length; i++)` of `check_collision_with_self`. -/
def check_collision_with_self (s : GameState) (pos : Vector) : Bool :=
  (List.range' 1 (s.length.toNat - 1)).any fun i =>
    (segAt s.segments i).position.x == pos.x && (segAt s.segments i).position.y == pos.y

/-! ## move_snake -/

/-- The `switch (direction)` of `move_snake`: the head moved one segment size. -/
def step_head (head : Vector) : Direction → Vector
  | DIR_UP => { head with y := head.y - SNAKE_SEGMENT_SIZE }
  | DIR_DOWN => { head with y := head.y + SNAKE_SEGMENT_SIZE }
  | DIR_LEFT => { head with x := head.x - SNAKE_SEGMENT_SIZE }
  | DIR_RIGHT => { head with x := head.x + SNAKE_SEGMENT_SIZE }

/-- The body of `if (food.active && newHead == food.position)`: the counters change. -/
def eat_food (s : GameState) : GameState :=
  let s := { s with food := { s.food with active := false }, score := s.score + 10,
                    foodEaten := s.foodEaten + 1 }
  let s := if s.moveSpeed > MIN_SPEED then { s with moveSpeed := sub32 s.moveSpeed SPEED_INCREASE } else s
  if s.foodEaten ≥ 10 then
    let s := { s with level := s.level + 1, foodEaten := 0 }
    if s.level ≥ 5 then { s with gameWon := true } else s
  else s

/-- The loop `for (i = …; i > 0; i--) segments[i].position = segments[i-1].position`,
entered with loop variable `i`. -/
def shift_body : Nat → Segments → Segments
  | 0, segs => segs
  | i + 1, segs => shift_body i (setPos segs (i + 1) (segAt segs i).position)

/-- The growing loop: as `shift_body`, and `segments[i].active = true`. -/
def grow_body : Nat → Segments → Segments
  | 0, segs => segs
  | i + 1, segs =>
    grow_body i (setActive (setPos segs (i + 1) (segAt segs i).position) (i + 1) true)

/-- One call of `move_snake`. `currentTime` is the value of
`to_ms_since_boot(get_absolute_time())`, a `uint32_t`: it is compared by 32-bit
subtraction and stored modulo `2^32`. -/
def move_snake (E : Env) (s : GameState) (currentTime : Nat) (rng : Nat → Nat) : GameState :=
  if s.gameOver then s
  else if sub32 currentTime s.lastMove < s.moveSpeed then s
  else
    let s := { s with lastMove := currentTime % 4294967296, direction := s.nextDirection }
    let newHead := step_head (segAt s.segments 0).position s.direction
    if check_collision_with_walls newHead || check_collision_with_self s newHead then
      let s := { s with lives := s.lives - 1 }
      if s.lives ≤ 0 then { s with gameOver := true }
      else spawn_food E (init_snake s) rng
    else
      let ateFood := s.food.active && newHead.x == s.food.position.x &&
        newHead.y == s.food.position.y
      let s := if ateFood then eat_food s else s
      let s :=
        if !ateFood then
          { s with segments := shift_body (s.length - 1).toNat s.segments }
        else if s.length < MAX_SNAKE_LENGTH then
          spawn_food E { s with segments := grow_body s.length.toNat s.segments,
                                length := s.length + 1 } rng
        else s
      { s with segments := setPos s.segments 0 newHead }

/-! ## player_update -/

/-- The `if / else if` chain of `player_update` ("handle input - prevent reverse
direction"). -/
def handle_input (E : Env) (s : GameState) (input : Int) : GameState :=
  if input = E.BUTTON_UP ∧ s.direction ≠ DIR_DOWN then { s with nextDirection := DIR_UP }
  else if input = E.BUTTON_DOWN ∧ s.direction ≠ DIR_UP then { s with nextDirection := DIR_DOWN }
  else if input = E.BUTTON_LEFT ∧ s.direction ≠ DIR_RIGHT then { s with nextDirection := DIR_LEFT }
  else if input = E.BUTTON_RIGHT ∧ s.direction ≠ DIR_LEFT then { s with nextDirection := DIR_RIGHT }
  else s

/-- One call of the update callback with `game->input = input`, the clock reading
`currentTime` and the draws `rng`. When `reset_game` runs, `move_snake` continues with the
draws that `reset_game` has not consumed. -/
def player_update (E : Env) (s : GameState) (input : Int) (currentTime : Nat)
    (rng : Nat → Nat) : GameState :=
  if s.gameOver then s
  else
    let s := handle_input E s input
    if s.gameOver ∧ input ≠ -1 then
      move_snake E (reset_game E s rng) currentTime
        (fun k => rng (k + reset_game_draws s rng))
    else move_snake E s currentTime rng

/-! ## Reachable states -/

/-- States reachable from `reset_game` (run on whatever state `player_spawn` holds) by
`player_update` calls with arbitrary input, clock reading and random draws. -/
inductive Reachable (E : Env) : GameState → Prop
  | reset (s0 : GameState) (rng : Nat → Nat) : Reachable E (reset_game E s0 rng)
  | update {s : GameState} (h : Reachable E s) (input : Int) (currentTime : Nat)
      (rng : Nat → Nat) : Reachable E (player_update E s input currentTime rng)

/-- The direction a tick commits: `nextDirection` after the input has been handled
(with no input this is the state's own `nextDirection`). -/
def committed (E : Env) (s : GameState) (input : Int) : Direction :=
  (handle_input E s input).nextDirection

/-- The candidate head of a tick: the head moved one step in the committed direction. -/
def candidate (E : Env) (s : GameState) (input : Int) : Vector :=
  step_head (segAt s.segments 0).position (committed E s input)

/-- The move is due: `currentTime - lastMove < moveSpeed` is false. -/
abbrev due (s : GameState) (currentTime : Nat) : Prop :=
  s.moveSpeed ≤ sub32 currentTime s.lastMove

/-- The state `move_snake` works on once the move is due: the time stamp is recorded and
`direction = nextDirection` is committed. -/
def commit (s : GameState) (t : Nat) : GameState :=
  { s with lastMove := t % 4294967296, direction := s.nextDirection }

/-- The direct reverse of a direction (Up/Down, Left/Right). -/
def opposite : Direction → Direction
  | DIR_UP => DIR_DOWN
  | DIR_DOWN => DIR_UP
  | DIR_LEFT => DIR_RIGHT
  | DIR_RIGHT => DIR_LEFT

/-- The button code that asks for a direction. -/
def button (E : Env) : Direction → Int
  | DIR_UP => E.BUTTON_UP
  | DIR_DOWN => E.BUTTON_DOWN
  | DIR_LEFT => E.BUTTON_LEFT
  | DIR_RIGHT => E.BUTTON_RIGHT

/-- Calling `player_update` `n` times with no input (`-1`); call number `k` (counted down
from `n - 1`) reads the clock `clock k` and the draws `draws k`. -/
def idle_updates (E : Env) (clock : Nat → Nat) (draws : Nat → Nat → Nat) :
    Nat → GameState → GameState
  | 0, s => s
  | n + 1, s => idle_updates E clock draws n (player_update E s (-1) (clock n) (draws n))

/-! ## Index sets and the intermediate state of a growing tick -/

/-- The indices a shifting or growing loop entered with loop variable `n` touches: each
iteration `i = n, n - 1, …, 1` writes `segments[i]` and reads `segments[i - 1]`. -/
def loop_indices : Nat → List Nat
  | 0 => []
  | i + 1 => (i + 1) :: i :: loop_indices i

/-- The indices `init_snake` writes: `i = 0 .. length - 1` with `length = 3` in its first
loop, `i = length .. MAX_SNAKE_LENGTH - 1` in its second. -/
def init_snake_indices : List Nat :=
  List.range 3 ++ List.range' 3 (MAX_SNAKE_LENGTH - 3)

/-- The indices `spawn_food` reads when the snake has the given length:
`i = 0 .. length - 1` in every attempt. -/
def spawn_food_indices (length : Int) : List Nat :=
  List.range length.toNat

/-- The indices `move_snake` can read or write when called in state `s`, over all its
branches: the head `0`; `i = 1 .. length - 1` in `check_collision_with_self`; the shifting
loop from `length - 1`; the growing loop from `length`, entered only under
`length < MAX_SNAKE_LENGTH`, and the `spawn_food` after it (length `length + 1`); and
`init_snake` with its `spawn_food` (length 3) after a collision. -/
def move_snake_indices (s : GameState) : List Nat :=
  [0] ++ List.range' 1 (s.length.toNat - 1) ++ loop_indices (s.length - 1).toNat ++
  (if s.length < MAX_SNAKE_LENGTH then
    loop_indices s.length.toNat ++ spawn_food_indices (s.length + 1) else []) ++
  init_snake_indices ++ spawn_food_indices 3

/-- The state `spawn_food` is called on in a growing tick of `move_snake`: the move is
committed, the food eaten, the body shifted by the growing loop and `length` incremented;
the head cell `segments[0]` still holds the old head position. -/
def grown (E : Env) (s : GameState) (input : Int) (t : Nat) : GameState :=
  { eat_food (commit { s with nextDirection := committed E s input } t) with segments := grow_body s.length.toNat s.segments, length := s.length + 1 }

/-! ## Concrete inputs used to evaluate the model -/

/-- A concrete choice of the external codes: buttons 0, 1, 2, 3 and red `0xF800`. -/
def sampleEnv : Env := ⟨0, 1, 2, 3, 63488⟩

/-- A zero-initialised state, as `new GameState()` yields. -/
def blankState : GameState :=
  { score := 0, lives := 0, gameOver := false, gameWon := false, direction := DIR_UP,
    nextDirection := DIR_UP,
    segments := ⟨List.replicate MAX_SNAKE_LENGTH ⟨⟨0, 0⟩, false⟩, List.length_replicate _ _⟩,
    length := 0, food := ⟨⟨0, 0⟩, false, 0⟩, lastMove := 0, moveSpeed := 0, player := 0,
    level := 0, foodEaten := 0 }

/-- Draws that make every food candidate the grid cell `(cx, 15)`, i.e. the position
`(8 * cx, 120)` on the snake's starting row. -/
def rowDraws (cx : Nat) : Nat → Nat :=
  fun k => if k % 2 = 0 then cx else 15

/-- The state after `player_spawn`: `reset_game` on the blank state, food at (152,120). -/
def startState : GameState :=
  reset_game sampleEnv blankState (rowDraws 19)

/-- A snake of three segments with its head on the left wall (x = 0), moving left. -/
def leftWallState (lives : Int) : GameState :=
  { startState with
    lives := lives, direction := DIR_LEFT, nextDirection := DIR_LEFT,
    segments := setPos (setPos (setPos startState.segments 0 ⟨0, 120⟩) 1 ⟨8, 120⟩) 2 ⟨16, 120⟩ }

/-- The draws of tick `n` of the straight run: food lands one cell ahead of the head the
tick produces (and on (152,120) after a crash re-initialises the snake). -/
def straightDraws (n : Nat) : Nat → Nat :=
  rowDraws (if n % 22 = 0 then 19 else 19 + n % 22)

/-- The straight run: from `startState`, `n` calls of `player_update` with no input, one
second apart. The snake runs right along row 120 eating at every step, hits the right
wall on every 22nd tick and starts again from the centre. -/
def straightRun : Nat → GameState
  | 0 => startState
  | n + 1 => player_update sampleEnv (straightRun n) (-1) (1000 * (n + 1)) (straightDraws (n + 1))

/-! ## Basic facts about the array and the helpers -/

theorem segAt_setSeg (segs : Segments) (i j : Nat) (v : SnakeSegment) :
    segAt (setSeg segs i v) j = if j = i ∧ i < MAX_SNAKE_LENGTH then v else segAt segs j := by
  unfold segAt setSeg
  simp only [List.getD_eq_getElem?_getD, List.getElem?_set]
  have hs := segs.size
  by_cases h : i = j
  · subst h
    by_cases h2 : i < MAX_SNAKE_LENGTH
    · simp [h2, hs]
    · have h3 : segs.cells.length ≤ i := by rw [hs]; omega
      simp [h2, hs, List.getElem?_eq_none h3]
  · have h' : ¬ j = i := fun e => h e.symm
    simp [h, h']

theorem segments_ext (a b : Segments)
    (h : ∀ i, i < MAX_SNAKE_LENGTH → segAt a i = segAt b i) : a = b := by
  cases a with
  | mk ca ha =>
    cases b with
    | mk cb hb =>
      have hc : ca = cb := by
        apply List.ext_getElem (by rw [ha, hb])
        intro n h1 h2
        have hn := h n (by rw [← ha]; exact h1)
        simpa [segAt, List.getD_eq_getElem?_getD, h1, h2] using hn
      subst hc
      rfl

theorem segAt_init_body (sx sy : Int) (n : Nat) :
    ∀ (i : Nat) (segs : Segments) (j : Nat),
      segAt (init_body sx sy n i segs) j =
        if i ≤ j ∧ j < i + n ∧ j < MAX_SNAKE_LENGTH then
          { position := ⟨sx - (j : Int) * SNAKE_SEGMENT_SIZE, sy⟩, active := true }
        else segAt segs j := by
  induction n with
  | zero => intro i segs j; rw [init_body, if_neg]; omega
  | succ n ih =>
    intro i segs j
    rw [init_body, ih, segAt_setSeg]
    by_cases h1 : j = i
    · subst h1
      by_cases h2 : j < MAX_SNAKE_LENGTH
      · simp [h2]
      · simp [h2]
    · have e1 : (i + 1 ≤ j ∧ j < i + 1 + n ∧ j < MAX_SNAKE_LENGTH) ↔
          (i ≤ j ∧ j < i + (n + 1) ∧ j < MAX_SNAKE_LENGTH) := by omega
      simp [h1, e1]

theorem segAt_clear_rest (n : Nat) :
    ∀ (i : Nat) (segs : Segments) (j : Nat),
      segAt (clear_rest n i segs) j =
        if i ≤ j ∧ j < i + n ∧ j < MAX_SNAKE_LENGTH then
          { segAt segs j with active := false }
        else segAt segs j := by
  induction n with
  | zero => intro i segs j; rw [clear_rest, if_neg]; omega
  | succ n ih =>
    intro i segs j
    rw [clear_rest, ih, setActive, segAt_setSeg]
    by_cases h1 : j = i
    · subst h1
      by_cases h2 : j < MAX_SNAKE_LENGTH
      · simp [h2]
      · simp [h2]
    · have e1 : (i + 1 ≤ j ∧ j < i + 1 + n ∧ j < MAX_SNAKE_LENGTH) ↔
          (i ≤ j ∧ j < i + (n + 1) ∧ j < MAX_SNAKE_LENGTH) := by omega
      simp [h1, e1]

/-- The cells `init_snake` leaves behind: three active cells on row 120, the rest inactive
with their old positions. -/
theorem segAt_init_snake (s : GameState) (j : Nat) (hj : j < MAX_SNAKE_LENGTH) :
    segAt (init_snake s).segments j =
      if j < 3 then { position := ⟨144 - 8 * (j : Int), 120⟩, active := true }
      else { segAt s.segments j with active := false } := by
  simp only [init_snake, segAt_clear_rest, segAt_init_body]
  by_cases h : j < 3
  · have h1 : ¬ (Int.toNat 3 ≤ j ∧ j < Int.toNat 3 + (MAX_SNAKE_LENGTH - Int.toNat 3) ∧
        j < MAX_SNAKE_LENGTH) := by simp; omega
    have h2 : (0 ≤ j ∧ j < 0 + Int.toNat 3 ∧ j < MAX_SNAKE_LENGTH) := by simp; omega
    rw [if_neg h1, if_pos h2, if_pos h]
    simp only [SCREEN_SIZE_X, SCREEN_SIZE_Y, SNAKE_SEGMENT_SIZE]
    congr 2
    · omega
  · have h1 : (Int.toNat 3 ≤ j ∧ j < Int.toNat 3 + (MAX_SNAKE_LENGTH - Int.toNat 3) ∧
        j < MAX_SNAKE_LENGTH) := by simp; omega
    have h2 : ¬ (0 ≤ j ∧ j < 0 + Int.toNat 3 ∧ j < MAX_SNAKE_LENGTH) := by simp; omega
    rw [if_pos h1, if_neg h2, if_neg h]

/-- Input handling writes `nextDirection` and nothing else. -/
theorem handle_input_eq (E : Env) (s : GameState) (input : Int) :
    handle_input E s input = { s with nextDirection := committed E s input } := by
  unfold committed handle_input
  split_ifs <;> rfl

/-- An input that is none of the four direction codes leaves `nextDirection` as it is. -/
theorem committed_of_no_button (E : Env) (s : GameState) (input : Int)
    (hu : input ≠ E.BUTTON_UP) (hd : input ≠ E.BUTTON_DOWN) (hl : input ≠ E.BUTTON_LEFT)
    (hr : input ≠ E.BUTTON_RIGHT) : committed E s input = s.nextDirection := by
  unfold committed handle_input
  simp [hu, hd, hl, hr]

/-- While the game is on, `player_update` is input handling followed by `move_snake`. -/
theorem player_update_playing (E : Env) (s : GameState) (input : Int) (t : Nat)
    (rng : Nat → Nat) (hplay : s.gameOver = false) :
    player_update E s input t rng =
      move_snake E { s with nextDirection := committed E s input } t rng := by
  unfold player_update
  rw [handle_input_eq]
  simp [hplay]

/-- Once the game is over, `player_update` returns at its first line. -/
theorem player_update_gameOver (E : Env) (s : GameState) (input : Int) (t : Nat)
    (rng : Nat → Nat) (hover : s.gameOver = true) :
    player_update E s input t rng = s := by
  unfold player_update
  simp [hover]

theorem spawn_food_segments (E : Env) (s : GameState) (rng : Nat → Nat) :
    (spawn_food E s rng).segments = s.segments := rfl

/-- A due move whose candidate head collides: the life is lost, and the snake is
re-initialised when lives remain. -/
theorem move_snake_collision (E : Env) (s : GameState) (t : Nat) (rng : Nat → Nat)
    (hplay : s.gameOver = false) (hdue : due s t)
    (hhit : check_collision_with_walls (step_head (segAt s.segments 0).position s.nextDirection) = true ∨
      check_collision_with_self s (step_head (segAt s.segments 0).position s.nextDirection) = true) :
    move_snake E s t rng =
      if s.lives - 1 ≤ 0 then
        { s with lastMove := t % 4294967296, direction := s.nextDirection, lives := s.lives - 1, gameOver := true }
      else
        spawn_food E (init_snake
          { s with lastMove := t % 4294967296, direction := s.nextDirection, lives := s.lives - 1 }) rng := by
  unfold due at hdue
  have hd : ¬ sub32 t s.lastMove < s.moveSpeed := by omega
  have hc : (check_collision_with_walls (step_head (segAt s.segments 0).position s.nextDirection) ||
      check_collision_with_self { s with lastMove := t % 4294967296, direction := s.nextDirection }
        (step_head (segAt s.segments 0).position s.nextDirection)) = true := by
    rw [Bool.or_eq_true]; exact hhit
  unfold move_snake
  rw [if_neg (by rw [hplay]; decide), if_neg hd]
  dsimp only
  rw [if_pos hc]

/-- A move that is not yet due changes nothing. -/
theorem move_snake_throttled (E : Env) (s : GameState) (t : Nat) (rng : Nat → Nat)
    (hearly : sub32 t s.lastMove < s.moveSpeed) : move_snake E s t rng = s := by
  unfold move_snake
  rw [if_pos hearly]
  split_ifs <;> rfl

theorem move_snake_gameOver (E : Env) (s : GameState) (t : Nat) (rng : Nat → Nat)
    (hover : s.gameOver = true) : move_snake E s t rng = s := by
  unfold move_snake
  rw [if_pos hover]

/-- A due move whose candidate head is free and carries no active food: the body shifts. -/
theorem move_snake_plain (E : Env) (s : GameState) (t : Nat) (rng : Nat → Nat)
    (hplay : s.gameOver = false) (hdue : due s t)
    (hwall : check_collision_with_walls (step_head (segAt s.segments 0).position s.nextDirection) = false)
    (hself : check_collision_with_self s (step_head (segAt s.segments 0).position s.nextDirection) = false)
    (hfood : ¬ (s.food.active = true ∧ s.food.position = step_head (segAt s.segments 0).position s.nextDirection)) :
    move_snake E s t rng =
      { s with lastMove := t % 4294967296, direction := s.nextDirection, segments := setPos (shift_body (s.length - 1).toNat s.segments) 0 (step_head (segAt s.segments 0).position s.nextDirection) } := by
  unfold due at hdue
  have hd : ¬ sub32 t s.lastMove < s.moveSpeed := by omega
  have hc : ¬ (check_collision_with_walls (step_head (segAt s.segments 0).position s.nextDirection) ||
      check_collision_with_self { s with lastMove := t % 4294967296, direction := s.nextDirection }
        (step_head (segAt s.segments 0).position s.nextDirection)) = true := by
    rw [Bool.or_eq_true, hwall]
    simp only [Bool.false_eq_true, false_or]
    intro h
    have h2 : check_collision_with_self s (step_head (segAt s.segments 0).position s.nextDirection) = true := h
    rw [hself] at h2
    exact Bool.false_ne_true h2
  have hf : (s.food.active && (step_head (segAt s.segments 0).position s.nextDirection).x == s.food.position.x &&
      (step_head (segAt s.segments 0).position s.nextDirection).y == s.food.position.y) = false := by
    rw [Bool.eq_false_iff]
    intro h
    simp only [Bool.and_eq_true, beq_iff_eq] at h
    apply hfood
    refine ⟨h.1.1, ?_⟩
    cases hp : s.food.position with
    | mk px py =>
      rw [hp] at h
      cases hq : step_head (segAt s.segments 0).position s.nextDirection with
      | mk qx qy =>
        rw [hq] at h
        simp only at h
        rw [h.1.2, h.2]
  unfold move_snake
  rw [if_neg (by rw [hplay]; decide), if_neg hd]
  dsimp only
  rw [if_neg hc, hf]
  rfl

/-- What `eat_food` leaves alone. -/
theorem eat_food_frame (s : GameState) :
    (eat_food s).score = s.score + 10 ∧ (eat_food s).lives = s.lives ∧
    (eat_food s).gameOver = s.gameOver ∧ (eat_food s).direction = s.direction ∧
    (eat_food s).nextDirection = s.nextDirection ∧ (eat_food s).segments = s.segments ∧
    (eat_food s).length = s.length ∧ (eat_food s).lastMove = s.lastMove ∧
    (eat_food s).player = s.player ∧ (eat_food s).food = { s.food with active := false } := by
  simp only [eat_food]
  split_ifs <;> simp

/-- The progression counters after `eat_food`. -/
theorem eat_food_counters (s : GameState) :
    (s.foodEaten + 1 < 10 ∧ (eat_food s).foodEaten = s.foodEaten + 1 ∧
      (eat_food s).level = s.level ∧ (eat_food s).gameWon = s.gameWon) ∨
    (10 ≤ s.foodEaten + 1 ∧ (eat_food s).foodEaten = 0 ∧ (eat_food s).level = s.level + 1 ∧
      (eat_food s).gameWon = (s.gameWon || decide (5 ≤ s.level + 1))) := by
  simp only [eat_food]
  split_ifs <;> simp_all

/-- The speed after `eat_food`. -/
theorem eat_food_moveSpeed (s : GameState) :
    (eat_food s).moveSpeed = if s.moveSpeed > MIN_SPEED then sub32 s.moveSpeed SPEED_INCREASE else s.moveSpeed := by
  simp only [eat_food]
  split_ifs <;> rfl

theorem move_snake_eat (E : Env) (s : GameState) (t : Nat) (rng : Nat → Nat)
    (hplay : s.gameOver = false) (hdue : due s t)
    (hwall : check_collision_with_walls (step_head (segAt s.segments 0).position s.nextDirection) = false)
    (hself : check_collision_with_self s (step_head (segAt s.segments 0).position s.nextDirection) = false)
    (hact : s.food.active = true)
    (hpos : s.food.position = step_head (segAt s.segments 0).position s.nextDirection) :
    move_snake E s t rng =
      if (eat_food (commit s t)).length < MAX_SNAKE_LENGTH then
        { spawn_food E { eat_food (commit s t) with segments := grow_body (eat_food (commit s t)).length.toNat (eat_food (commit s t)).segments, length := (eat_food (commit s t)).length + 1 } rng with segments := setPos (grow_body (eat_food (commit s t)).length.toNat (eat_food (commit s t)).segments) 0 (step_head (segAt s.segments 0).position s.nextDirection) }
      else
        { eat_food (commit s t) with segments := setPos (eat_food (commit s t)).segments 0 (step_head (segAt s.segments 0).position s.nextDirection) } := by
  unfold due at hdue
  have hd : ¬ sub32 t s.lastMove < s.moveSpeed := by omega
  have hc : ¬ (check_collision_with_walls (step_head (segAt s.segments 0).position s.nextDirection) ||
      check_collision_with_self { s with lastMove := t % 4294967296, direction := s.nextDirection }
        (step_head (segAt s.segments 0).position s.nextDirection)) = true := by
    rw [Bool.or_eq_true, hwall]
    simp only [Bool.false_eq_true, false_or]
    intro h
    have h2 : check_collision_with_self s (step_head (segAt s.segments 0).position s.nextDirection) = true := h
    rw [hself] at h2
    exact Bool.false_ne_true h2
  have hf : (s.food.active && (step_head (segAt s.segments 0).position s.nextDirection).x == s.food.position.x &&
      (step_head (segAt s.segments 0).position s.nextDirection).y == s.food.position.y) = true := by
    rw [hact, hpos]; simp
  unfold move_snake
  rw [if_neg (by rw [hplay]; decide), if_neg hd]
  dsimp only
  rw [if_neg hc, hf]
  simp only [if_true, Bool.not_true, Bool.false_eq_true, if_false]
  unfold commit
  split_ifs <;> rfl

/-- How one `player_update` call moves the counters and flags: nothing happens, or a life
is lost, or one food item is eaten. -/
theorem player_update_counters (E : Env) (s : GameState) (input : Int) (t : Nat)
    (rng : Nat → Nat) :
    let s' := player_update E s input t rng
    (s'.score = s.score ∧ s'.level = s.level ∧ s'.foodEaten = s.foodEaten ∧
      s'.gameWon = s.gameWon ∧ s'.lives = s.lives ∧ s'.gameOver = s.gameOver) ∨
    (s.gameOver = false ∧ s'.score = s.score ∧ s'.level = s.level ∧
      s'.foodEaten = s.foodEaten ∧ s'.gameWon = s.gameWon ∧ s'.lives = s.lives - 1 ∧
      (s'.gameOver = true ↔ s.lives - 1 ≤ 0)) ∨
    (s.gameOver = false ∧ s'.gameOver = false ∧ s'.lives = s.lives ∧
      s'.score = s.score + 10 ∧
      ((s.foodEaten + 1 < 10 ∧ s'.foodEaten = s.foodEaten + 1 ∧ s'.level = s.level ∧
          s'.gameWon = s.gameWon) ∨
        (10 ≤ s.foodEaten + 1 ∧ s'.foodEaten = 0 ∧ s'.level = s.level + 1 ∧
          s'.gameWon = (s.gameWon || decide (5 ≤ s.level + 1))))) := by
  intro s'
  by_cases hover : s.gameOver = true
  · left
    have h : s' = s := player_update_gameOver E s input t rng hover
    rw [h]
    exact ⟨rfl, rfl, rfl, rfl, rfl, rfl⟩
  have hplay : s.gameOver = false := by
    cases hg : s.gameOver
    · rfl
    · exact absurd hg hover
  have h0 : s' = move_snake E { s with nextDirection := committed E s input } t rng :=
    player_update_playing E s input t rng hplay
  by_cases hdue : due { s with nextDirection := committed E s input } t
  swap
  · left
    have hearly : sub32 t s.lastMove < s.moveSpeed := by
      unfold due at hdue
      exact Nat.lt_of_not_le hdue
    rw [h0, move_snake_throttled E { s with nextDirection := committed E s input } t rng hearly]
    exact ⟨rfl, rfl, rfl, rfl, rfl, rfl⟩
  by_cases hhit : check_collision_with_walls (candidate E s input) = true ∨
      check_collision_with_self s (candidate E s input) = true
  · right; left
    rw [h0, move_snake_collision E { s with nextDirection := committed E s input } t rng hplay hdue hhit]
    by_cases hl : s.lives - 1 ≤ 0
    · rw [if_pos hl]
      exact ⟨hplay, rfl, rfl, rfl, rfl, rfl, fun _ => hl, fun _ => rfl⟩
    · rw [if_neg hl]
      refine ⟨hplay, rfl, rfl, rfl, rfl, rfl, ?_⟩
      show (s.gameOver = true ↔ _)
      rw [hplay]
      simp [hl]
  have hwall : check_collision_with_walls (candidate E s input) = false := by
    cases hw : check_collision_with_walls (candidate E s input)
    · rfl
    · exact absurd (Or.inl hw) hhit
  have hself : check_collision_with_self s (candidate E s input) = false := by
    cases hw : check_collision_with_self s (candidate E s input)
    · rfl
    · exact absurd (Or.inr hw) hhit
  by_cases hfood : s.food.active = true ∧ s.food.position = candidate E s input
  · right; right
    have hs' := move_snake_eat E { s with nextDirection := committed E s input } t rng hplay hdue hwall hself hfood.1 hfood.2
    rw [← h0] at hs'
    have hfr := eat_food_frame (commit { s with nextDirection := committed E s input } t)
    have hct := eat_food_counters (commit { s with nextDirection := committed E s input } t)
    obtain ⟨f1, f2, f3, -, -, -, -, -, -, -⟩ := hfr
    have e1 : s'.score = (eat_food (commit { s with nextDirection := committed E s input } t)).score := by
      rw [hs']; split_ifs <;> rfl
    have e2 : s'.lives = (eat_food (commit { s with nextDirection := committed E s input } t)).lives := by
      rw [hs']; split_ifs <;> rfl
    have e3 : s'.gameOver = (eat_food (commit { s with nextDirection := committed E s input } t)).gameOver := by
      rw [hs']; split_ifs <;> rfl
    have e4 : s'.foodEaten = (eat_food (commit { s with nextDirection := committed E s input } t)).foodEaten := by
      rw [hs']; split_ifs <;> rfl
    have e5 : s'.level = (eat_food (commit { s with nextDirection := committed E s input } t)).level := by
      rw [hs']; split_ifs <;> rfl
    have e6 : s'.gameWon = (eat_food (commit { s with nextDirection := committed E s input } t)).gameWon := by
      rw [hs']; split_ifs <;> rfl
    rw [e1, e2, e3, e4, e5, e6, f1, f2, f3]
    exact ⟨hplay, hplay, rfl, rfl, hct⟩
  · left
    rw [h0, move_snake_plain E { s with nextDirection := committed E s input } t rng hplay hdue hwall hself hfood]
    exact ⟨rfl, rfl, rfl, rfl, rfl, rfl⟩

/-- The counter facts that hold in every reachable state. -/
theorem reachable_counters (E : Env) (s : GameState) (h : Reachable E s) :
    0 ≤ s.foodEaten ∧ s.foodEaten ≤ 9 ∧ 1 ≤ s.level ∧
    s.score = 10 * (10 * (s.level - 1) + s.foodEaten) ∧
    (s.gameWon = true ↔ 5 ≤ s.level) ∧ (s.gameOver = true ↔ s.lives ≤ 0) ∧ 0 ≤ s.lives := by
  induction h with
  | reset s0 rng =>
    simp only [reset_game, spawn_food, init_snake, reset_fields]
    simp
  | update hr input t rng ih =>
    rename_i s
    obtain ⟨i1, i2, i3, i4, i5, i6, i7⟩ := ih
    have hc := player_update_counters E s input t rng
    simp only at hc
    rcases hc with ⟨c1, c2, c3, c4, c5, c6⟩ | ⟨c0, c1, c2, c3, c4, c5, c6⟩ |
      ⟨c0, c1, c2, c3, c4⟩
    · rw [c1, c2, c3, c4, c5, c6]
      exact ⟨i1, i2, i3, i4, i5, i6, i7⟩
    · rw [c1, c2, c3, c4, c5, c6]
      have hl : ¬ s.lives ≤ 0 := by
        intro hle
        have := i6.2 hle
        rw [c0] at this
        exact Bool.false_ne_true this
      exact ⟨i1, i2, i3, i4, i5, Iff.rfl, by omega⟩
    · rw [c1, c2, c3]
      have hl : ¬ s.lives ≤ 0 := by
        intro hle
        have := i6.2 hle
        rw [c0] at this
        exact Bool.false_ne_true this
      rcases c4 with ⟨d0, d1, d2, d3⟩ | ⟨d0, d1, d2, d3⟩
      · rw [d1, d2, d3]
        refine ⟨by omega, by omega, i3, by omega, i5, ?_, i7⟩
        simp [hl]
      · rw [d1, d2, d3]
        refine ⟨by omega, by omega, by omega, by omega, ?_, ?_, i7⟩
        · by_cases h5 : 5 ≤ s.level + 1
          · simp [h5]
          · have h6 : ¬ 5 ≤ s.level := by omega
            have h7 : s.gameWon = false := by
              cases hg : s.gameWon
              · rfl
              · exact absurd (i5.1 hg) h6
            simp [h5, h7]
        · simp [hl]

/-- The self-collision loop finds a hit exactly when some segment with index
`1 .. length - 1` sits at the position. -/
theorem check_collision_with_self_iff (s : GameState) (p : Vector) :
    check_collision_with_self s p = true ↔
      ∃ i : Nat, 1 ≤ i ∧ (i : Int) < s.length ∧ (segAt s.segments i).position = p := by
  unfold check_collision_with_self
  rw [List.any_eq_true]
  constructor
  · rintro ⟨i, hi, hp⟩
    rw [List.mem_range'_1] at hi
    simp only [Bool.and_eq_true, beq_iff_eq] at hp
    refine ⟨i, hi.1, by omega, ?_⟩
    cases hq : (segAt s.segments i).position with
    | mk qx qy =>
      rw [hq] at hp
      simp only at hp
      rw [hp.1, hp.2]
  · rintro ⟨i, h1, h2, hp⟩
    refine ⟨i, ?_, ?_⟩
    · rw [List.mem_range'_1]; omega
    · rw [hp]; simp

/-- Every state of the straight run is reachable. -/
theorem straightRun_reachable (n : Nat) : Reachable sampleEnv (straightRun n) := by
  induction n with
  | zero => exact Reachable.reset blankState (rowDraws 19)
  | succ n ih => exact Reachable.update ih (-1) (1000 * (n + 1)) (straightDraws (n + 1))

set_option maxRecDepth 100000 in
/-- After 66 ticks of the straight run the third life is gone, 63 food items have been
eaten, and both terminal flags are set. -/
theorem straightRun_end :
    (straightRun 66).gameOver = true ∧ (straightRun 66).gameWon = true ∧
    (straightRun 66).lives = 0 ∧ (straightRun 66).score = 630 ∧ (straightRun 66).level = 7 := by
  decide

/-! ## The claims -/

/-- C1. Collision with lives to spare: when the game is on, more than one life is left,
the move is due and the candidate head (the head moved one step in the direction this
tick commits) is outside the field or on a body segment, `player_update` takes exactly one
life, leaves `gameOver` false and re-initialises the snake: length 3, segments at
(144,120), (136,120), (128,120), direction and nextDirection Right, every segment from
index 3 on inactive, food active; score, level, foodEaten and moveSpeed keep their
values. -/
theorem C1_collision_with_lives_to_spare (E : Env) (s : GameState) (input : Int)
    (currentTime : Nat) (rng : Nat → Nat)
    (hplay : s.gameOver = false) (hlives : 1 < s.lives) (hdue : due s currentTime)
    (hhit : check_collision_with_walls (candidate E s input) = true ∨
      check_collision_with_self s (candidate E s input) = true) :
    let s' := player_update E s input currentTime rng
    s'.lives = s.lives - 1 ∧ s'.gameOver = false ∧ s'.length = 3 ∧
    segAt s'.segments 0 = ⟨⟨144, 120⟩, true⟩ ∧
    segAt s'.segments 1 = ⟨⟨136, 120⟩, true⟩ ∧
    segAt s'.segments 2 = ⟨⟨128, 120⟩, true⟩ ∧
    s'.direction = DIR_RIGHT ∧ s'.nextDirection = DIR_RIGHT ∧
    (∀ i, 3 ≤ i → i < MAX_SNAKE_LENGTH → (segAt s'.segments i).active = false) ∧
    s'.food.active = true ∧
    s'.score = s.score ∧ s'.level = s.level ∧ s'.foodEaten = s.foodEaten ∧
    s'.moveSpeed = s.moveSpeed := by
  intro s'
  have hs' : s' = spawn_food E (init_snake
      { s with nextDirection := committed E s input, lastMove := currentTime % 4294967296, direction := committed E s input, lives := s.lives - 1 }) rng := by
    show player_update E s input currentTime rng = _
    rw [player_update_playing E s input currentTime rng hplay,
      move_snake_collision E { s with nextDirection := committed E s input } currentTime rng hplay hdue hhit]
    have : ¬ s.lives - 1 ≤ 0 := by omega
    simp only [this, if_false]
  have hseg : ∀ j, j < MAX_SNAKE_LENGTH → segAt s'.segments j =
      if j < 3 then { position := ⟨144 - 8 * (j : Int), 120⟩, active := true }
      else { segAt s.segments j with active := false } := by
    intro j hj
    rw [hs', spawn_food_segments, segAt_init_snake _ j hj]
  refine ⟨by rw [hs']; rfl, by rw [hs']; exact hplay, by rw [hs']; rfl, ?_, ?_, ?_,
    by rw [hs']; rfl, by rw [hs']; rfl, ?_, by rw [hs']; rfl, by rw [hs']; rfl,
    by rw [hs']; rfl, by rw [hs']; rfl, by rw [hs']; rfl⟩
  · rw [hseg 0 (by decide)]; rfl
  · rw [hseg 1 (by decide)]; rfl
  · rw [hseg 2 (by decide)]; rfl
  · intro i h3 h100
    rw [hseg i h100, if_neg (by omega)]

/-- C1 at a concrete input: three segments with the head on the left wall, moving left,
three lives; the tick at clock 1000 hits the wall. -/
theorem C1_witness :
    ((leftWallState 3).gameOver = false ∧ 1 < (leftWallState 3).lives ∧
      due (leftWallState 3) 1000 ∧
      (check_collision_with_walls (candidate sampleEnv (leftWallState 3) (-1)) = true ∨
        check_collision_with_self (leftWallState 3)
          (candidate sampleEnv (leftWallState 3) (-1)) = true)) ∧
    (let s' := player_update sampleEnv (leftWallState 3) (-1) 1000 (rowDraws 19)
     s'.lives = (leftWallState 3).lives - 1 ∧ s'.gameOver = false ∧ s'.length = 3 ∧
     segAt s'.segments 0 = ⟨⟨144, 120⟩, true⟩ ∧
     segAt s'.segments 1 = ⟨⟨136, 120⟩, true⟩ ∧
     segAt s'.segments 2 = ⟨⟨128, 120⟩, true⟩ ∧
     s'.direction = DIR_RIGHT ∧ s'.nextDirection = DIR_RIGHT ∧
     (∀ i, 3 ≤ i → i < MAX_SNAKE_LENGTH → (segAt s'.segments i).active = false) ∧
     s'.food.active = true ∧
     s'.score = (leftWallState 3).score ∧ s'.level = (leftWallState 3).level ∧
     s'.foodEaten = (leftWallState 3).foodEaten ∧
     s'.moveSpeed = (leftWallState 3).moveSpeed) :=
  ⟨⟨by decide, by decide, by decide, Or.inl (by decide)⟩,
    C1_collision_with_lives_to_spare sampleEnv (leftWallState 3) (-1) 1000 (rowDraws 19)
      (by decide) (by decide) (by decide) (Or.inl (by decide))⟩

/-- C2. Collision on the last life: when the game is on, `lives = 1`, the move is due and
the candidate head hits a wall or a body segment, `player_update` sets `lives` to 0 and
`gameOver` to true and leaves length, the whole segment array, the food, score, level and
foodEaten as they were. -/
theorem C2_collision_on_last_life (E : Env) (s : GameState) (input : Int)
    (currentTime : Nat) (rng : Nat → Nat)
    (hplay : s.gameOver = false) (hlives : s.lives = 1) (hdue : due s currentTime)
    (hhit : check_collision_with_walls (candidate E s input) = true ∨
      check_collision_with_self s (candidate E s input) = true) :
    let s' := player_update E s input currentTime rng
    s'.lives = 0 ∧ s'.gameOver = true ∧ s'.length = s.length ∧ s'.segments = s.segments ∧
    s'.food = s.food ∧ s'.score = s.score ∧ s'.level = s.level ∧
    s'.foodEaten = s.foodEaten := by
  intro s'
  have hs' : s' = { s with nextDirection := committed E s input, lastMove := currentTime % 4294967296, direction := committed E s input, lives := s.lives - 1, gameOver := true } := by
    show player_update E s input currentTime rng = _
    rw [player_update_playing E s input currentTime rng hplay,
      move_snake_collision E { s with nextDirection := committed E s input } currentTime rng hplay hdue hhit]
    have h0 : s.lives - 1 ≤ 0 := by omega
    simp only [h0, if_true]
  rw [hs']
  refine ⟨?_, rfl, rfl, rfl, rfl, rfl, rfl, rfl⟩
  show s.lives - 1 = 0
  omega

/-- C2 at a concrete input: the snake on the left wall with one life left. -/
theorem C2_witness :
    ((leftWallState 1).gameOver = false ∧ (leftWallState 1).lives = 1 ∧
      due (leftWallState 1) 1000 ∧
      (check_collision_with_walls (candidate sampleEnv (leftWallState 1) (-1)) = true ∨
        check_collision_with_self (leftWallState 1)
          (candidate sampleEnv (leftWallState 1) (-1)) = true)) ∧
    (let s' := player_update sampleEnv (leftWallState 1) (-1) 1000 (rowDraws 19)
     s'.lives = 0 ∧ s'.gameOver = true ∧ s'.length = (leftWallState 1).length ∧
     s'.segments = (leftWallState 1).segments ∧ s'.food = (leftWallState 1).food ∧
     s'.score = (leftWallState 1).score ∧ s'.level = (leftWallState 1).level ∧
     s'.foodEaten = (leftWallState 1).foodEaten) :=
  ⟨⟨by decide, by decide, by decide, Or.inl (by decide)⟩,
    C2_collision_on_last_life sampleEnv (leftWallState 1) (-1) 1000 (rowDraws 19)
      (by decide) (by decide) (by decide) (Or.inl (by decide))⟩

/-- C3. Eating food: when the game is on, the move is due, the candidate head hits neither
wall nor body and the active food lies on the candidate head, `player_update` raises
score by exactly 10; length becomes `length + 1` when it was below 100 and stays as it
was when it was 100. -/
theorem C3_eating_food (E : Env) (s : GameState) (input : Int)
    (currentTime : Nat) (rng : Nat → Nat)
    (hplay : s.gameOver = false) (hdue : due s currentTime)
    (hwall : check_collision_with_walls (candidate E s input) = false)
    (hself : check_collision_with_self s (candidate E s input) = false)
    (hact : s.food.active = true) (hpos : s.food.position = candidate E s input) :
    let s' := player_update E s input currentTime rng
    s'.score = s.score + 10 ∧
    (s.length < MAX_SNAKE_LENGTH → s'.length = s.length + 1) ∧
    (s.length = MAX_SNAKE_LENGTH → s'.length = s.length) := by
  intro s'
  have hs' := move_snake_eat E { s with nextDirection := committed E s input } currentTime rng hplay hdue hwall hself hact hpos
  rw [← player_update_playing E s input currentTime rng hplay] at hs'
  have hfr := eat_food_frame (commit { s with nextDirection := committed E s input } currentTime)
  have hlen : (eat_food (commit { s with nextDirection := committed E s input } currentTime)).length = s.length := hfr.2.2.2.2.2.2.1
  have hsc : (eat_food (commit { s with nextDirection := committed E s input } currentTime)).score = s.score + 10 := hfr.1
  rw [hlen] at hs'
  show (player_update E s input currentTime rng).score = _ ∧ (_ → (player_update E s input currentTime rng).length = _) ∧ (_ → (player_update E s input currentTime rng).length = _)
  rw [hs']
  by_cases hl : s.length < MAX_SNAKE_LENGTH
  · rw [if_pos hl]
    refine ⟨hsc, fun _ => ?_, fun h => ?_⟩
    · show s.length + 1 = s.length + 1
      rfl
    · omega
  · rw [if_neg hl]
    exact ⟨hsc, fun h => absurd h hl, fun _ => hlen⟩

/-- C3 at a concrete input: the start state, whose food lies one cell ahead of the head. -/
theorem C3_witness :
    (startState.gameOver = false ∧ due startState 1000 ∧
      check_collision_with_walls (candidate sampleEnv startState (-1)) = false ∧
      check_collision_with_self startState (candidate sampleEnv startState (-1)) = false ∧
      startState.food.active = true ∧
      startState.food.position = candidate sampleEnv startState (-1)) ∧
    (let s' := player_update sampleEnv startState (-1) 1000 (rowDraws 20)
     s'.score = startState.score + 10 ∧
     (startState.length < MAX_SNAKE_LENGTH → s'.length = startState.length + 1) ∧
     (startState.length = MAX_SNAKE_LENGTH → s'.length = startState.length)) :=
  ⟨⟨by decide, by decide, by decide, by decide, by decide, by decide⟩,
    C3_eating_food sampleEnv startState (-1) 1000 (rowDraws 20)
      (by decide) (by decide) (by decide) (by decide) (by decide) (by decide)⟩

/-- C4. Movement throttle: when the game is on and the 32-bit difference
`currentTime - lastMove` is below `moveSpeed`, `player_update` returns, for every input,
the state it was given with at most `nextDirection` replaced. -/
theorem C4_movement_throttle (E : Env) (s : GameState) (input : Int)
    (currentTime : Nat) (rng : Nat → Nat)
    (hplay : s.gameOver = false) (hearly : sub32 currentTime s.lastMove < s.moveSpeed) :
    player_update E s input currentTime rng =
      { s with nextDirection := (player_update E s input currentTime rng).nextDirection } := by
  have h : player_update E s input currentTime rng = { s with nextDirection := committed E s input } := by
    rw [player_update_playing E s input currentTime rng hplay]
    exact move_snake_throttled E _ currentTime rng hearly
  rw [h]

/-- C4 at a concrete input: the start state 100 ms after the reset, Up pressed. -/
theorem C4_witness :
    (startState.gameOver = false ∧ sub32 100 startState.lastMove < startState.moveSpeed) ∧
    player_update sampleEnv startState sampleEnv.BUTTON_UP 100 (rowDraws 20) =
      { startState with
        nextDirection :=
          (player_update sampleEnv startState sampleEnv.BUTTON_UP 100 (rowDraws 20)).nextDirection } :=
  ⟨⟨by decide, by decide⟩,
    C4_movement_throttle sampleEnv startState sampleEnv.BUTTON_UP 100 (rowDraws 20)
      (by decide) (by decide)⟩

/-- C5. Reverse input is ignored: with four different button codes (none of them `-1`),
in every state whose direction is `d`, `player_update` with the button of the direction
opposite to `d` returns exactly the state that `player_update` with no input (`-1`)
returns for the same clock reading and draws; the input handling itself leaves the state
(so also `nextDirection`) untouched. -/
theorem C5_reverse_input_ignored (E : Env) (hE : E.distinct) (s : GameState) (d : Direction)
    (hd : s.direction = d) (currentTime : Nat) (rng : Nat → Nat) :
    player_update E s (button E (opposite d)) currentTime rng =
      player_update E s (-1) currentTime rng ∧
    handle_input E s (button E (opposite d)) = s := by
  obtain ⟨h1, h2, h3, h4, h5, h6, h7, h8, h9, h10⟩ := hE
  have hi : handle_input E s (button E (opposite d)) = s := by
    unfold handle_input
    cases d <;> simp [button, opposite, hd, h1, h2, h3, h4, h5, h6, Ne.symm h1, Ne.symm h2, Ne.symm h3, Ne.symm h4, Ne.symm h5, Ne.symm h6]
  have hn : handle_input E s (-1) = s := by
    unfold handle_input
    simp [Ne.symm h7, Ne.symm h8, Ne.symm h9, Ne.symm h10]
  have hb : button E (opposite d) ≠ -1 := by
    cases d <;> simp [button, opposite, h7, h8, h9, h10]
  refine ⟨?_, hi⟩
  unfold player_update
  rw [hi, hn]
  by_cases hg : s.gameOver = true
  · simp [hg]
  · simp [hg]

/-- C5 at a concrete input: the start state moves right, Left is pressed. -/
theorem C5_witness :
    (sampleEnv.distinct ∧ startState.direction = DIR_RIGHT) ∧
    (player_update sampleEnv startState (button sampleEnv (opposite DIR_RIGHT)) 1000 (rowDraws 20) =
        player_update sampleEnv startState (-1) 1000 (rowDraws 20) ∧
      handle_input sampleEnv startState (button sampleEnv (opposite DIR_RIGHT)) = startState) :=
  ⟨⟨by decide, by decide⟩,
    C5_reverse_input_ignored sampleEnv (by decide) startState DIR_RIGHT (by decide) 1000
      (rowDraws 20)⟩

/-- C6, evaluated on the code: the state after 66 ticks of the straight run is reachable
and has `gameOver` true; `player_update` with the Up button pressed (an input other than
`-1`) returns it unchanged, so `gameOver` stays true, `lives` stays 0 and the score stays
630: the session is not reset. -/
theorem C6_game_over_input_does_not_reset :
    Reachable sampleEnv (straightRun 66) ∧ (straightRun 66).gameOver = true ∧
    sampleEnv.BUTTON_UP ≠ -1 ∧
    player_update sampleEnv (straightRun 66) sampleEnv.BUTTON_UP 67000 (rowDraws 19) =
      straightRun 66 ∧
    (player_update sampleEnv (straightRun 66) sampleEnv.BUTTON_UP 67000 (rowDraws 19)).gameOver =
      true ∧
    (player_update sampleEnv (straightRun 66) sampleEnv.BUTTON_UP 67000 (rowDraws 19)).lives = 0 ∧
    (player_update sampleEnv (straightRun 66) sampleEnv.BUTTON_UP 67000 (rowDraws 19)).score =
      630 := by
  have h := player_update_gameOver sampleEnv (straightRun 66) sampleEnv.BUTTON_UP 67000
    (rowDraws 19) straightRun_end.1
  refine ⟨straightRun_reachable 66, straightRun_end.1, by decide, h, ?_, ?_, ?_⟩
  · rw [h]; exact straightRun_end.1
  · rw [h]; exact straightRun_end.2.2.1
  · rw [h]; exact straightRun_end.2.2.2.1

/-- C7. Game-over idempotence: in every state with `gameOver` true, `player_update` with
no input returns the state unchanged, whatever the clock reads; hence any number of such
calls (each with its own clock reading and draws) gives what one call gives. -/
theorem C7_game_over_idempotent (E : Env) (s : GameState) (currentTime : Nat)
    (rng : Nat → Nat) (hover : s.gameOver = true) :
    player_update E s (-1) currentTime rng = s ∧
    ∀ (clock : Nat → Nat) (draws : Nat → Nat → Nat) (n : Nat),
      idle_updates E clock draws n s = player_update E s (-1) currentTime rng := by
  have h1 := player_update_gameOver E s (-1) currentTime rng hover
  refine ⟨h1, ?_⟩
  intro clock draws n
  rw [h1]
  induction n with
  | zero => rfl
  | succ n ih =>
    rw [idle_updates, player_update_gameOver E s (-1) (clock n) (draws n) hover]
    exact ih

/-- C7 at a concrete input: the game-over state that ends the straight run. -/
theorem C7_witness :
    (straightRun 66).gameOver = true ∧
    (player_update sampleEnv (straightRun 66) (-1) 67000 (rowDraws 19) = straightRun 66 ∧
      ∀ (clock : Nat → Nat) (draws : Nat → Nat → Nat) (n : Nat),
        idle_updates sampleEnv clock draws n (straightRun 66) =
          player_update sampleEnv (straightRun 66) (-1) 67000 (rowDraws 19)) :=
  ⟨straightRun_end.1,
    C7_game_over_idempotent sampleEnv (straightRun 66) 67000 (rowDraws 19) straightRun_end.1⟩

/-- C8. Level progression counters: in every reachable state `0 ≤ foodEaten ≤ 9` and
`score = 10 * (10 * (level - 1) + foodEaten)`; and a `player_update` call from it either
leaves score, level and foodEaten alone, or eats one item (score + 10), which raises
foodEaten by one when it was below 9 and, when it was 9 (the tenth item of the level),
puts foodEaten back to 0 and raises level by one. -/
theorem C8_level_progression (E : Env) (s : GameState) (h : Reachable E s) (input : Int)
    (currentTime : Nat) (rng : Nat → Nat) :
    (0 ≤ s.foodEaten ∧ s.foodEaten ≤ 9 ∧
      s.score = 10 * (10 * (s.level - 1) + s.foodEaten)) ∧
    (let s' := player_update E s input currentTime rng
     (s'.score = s.score ∧ s'.level = s.level ∧ s'.foodEaten = s.foodEaten) ∨
     (s'.score = s.score + 10 ∧ s.foodEaten < 9 ∧ s'.foodEaten = s.foodEaten + 1 ∧
       s'.level = s.level) ∨
     (s'.score = s.score + 10 ∧ s.foodEaten = 9 ∧ s'.foodEaten = 0 ∧
       s'.level = s.level + 1)) := by
  obtain ⟨i1, i2, -, i4, -, -, -⟩ := reachable_counters E s h
  refine ⟨⟨i1, i2, i4⟩, ?_⟩
  intro s'
  have hc := player_update_counters E s input currentTime rng
  simp only at hc
  rcases hc with ⟨c1, c2, c3, -⟩ | ⟨-, c1, c2, c3, -⟩ | ⟨-, -, -, c3, c4⟩
  · exact Or.inl ⟨c1, c2, c3⟩
  · exact Or.inl ⟨c1, c2, c3⟩
  · rcases c4 with ⟨d0, d1, d2, -⟩ | ⟨d0, d1, d2, -⟩
    · exact Or.inr (Or.inl ⟨c3, by omega, d1, d2⟩)
    · exact Or.inr (Or.inr ⟨c3, by omega, d1, d2⟩)

/-- C8 at a concrete input: the straight run after 9 ticks, about to eat the tenth item. -/
theorem C8_witness :
    Reachable sampleEnv (straightRun 9) ∧
    ((0 ≤ (straightRun 9).foodEaten ∧ (straightRun 9).foodEaten ≤ 9 ∧
        (straightRun 9).score = 10 * (10 * ((straightRun 9).level - 1) + (straightRun 9).foodEaten)) ∧
      (let s' := player_update sampleEnv (straightRun 9) (-1) 10000 (straightDraws 10)
       (s'.score = (straightRun 9).score ∧ s'.level = (straightRun 9).level ∧
         s'.foodEaten = (straightRun 9).foodEaten) ∨
       (s'.score = (straightRun 9).score + 10 ∧ (straightRun 9).foodEaten < 9 ∧
         s'.foodEaten = (straightRun 9).foodEaten + 1 ∧ s'.level = (straightRun 9).level) ∨
       (s'.score = (straightRun 9).score + 10 ∧ (straightRun 9).foodEaten = 9 ∧
         s'.foodEaten = 0 ∧ s'.level = (straightRun 9).level + 1))) :=
  ⟨straightRun_reachable 9,
    C8_level_progression sampleEnv (straightRun 9) (straightRun_reachable 9) (-1) 10000
      (straightDraws 10)⟩

/-- C9. Win condition: in every reachable state `gameWon` is true exactly when
`level ≥ 5`; and a `player_update` call from it turns `gameWon` from false to true
exactly when it takes `level` from 4 to 5. -/
theorem C9_win_condition (E : Env) (s : GameState) (h : Reachable E s) (input : Int)
    (currentTime : Nat) (rng : Nat → Nat) :
    (s.gameWon = true ↔ 5 ≤ s.level) ∧
    (let s' := player_update E s input currentTime rng
     (s.gameWon = false ∧ s'.gameWon = true) ↔ (s.level = 4 ∧ s'.level = 5)) := by
  obtain ⟨-, -, -, -, i5, -, -⟩ := reachable_counters E s h
  obtain ⟨-, -, -, -, j5, -, -⟩ :=
    reachable_counters E _ (Reachable.update h input currentTime rng)
  refine ⟨i5, ?_⟩
  intro s'
  have hc := player_update_counters E s input currentTime rng
  simp only at hc
  have hlev : s'.level = s.level ∨ s'.level = s.level + 1 := by
    rcases hc with ⟨-, c2, -⟩ | ⟨-, -, c2, -⟩ | ⟨-, -, -, -, c4⟩
    · exact Or.inl c2
    · exact Or.inl c2
    · rcases c4 with ⟨-, -, d2, -⟩ | ⟨-, -, d2, -⟩
      · exact Or.inl d2
      · exact Or.inr d2
  have j5' : s'.gameWon = true ↔ 5 ≤ s'.level := j5
  constructor
  · rintro ⟨h1, h2⟩
    have a1 : ¬ 5 ≤ s.level := by
      intro h5
      rw [i5.2 h5] at h1
      exact Bool.noConfusion h1
    have a2 : 5 ≤ s'.level := j5'.1 h2
    omega
  · rintro ⟨h1, h2⟩
    refine ⟨?_, j5'.2 (by omega)⟩
    cases hg : s.gameWon
    · rfl
    · have := i5.1 hg
      omega

/-- C9 at a concrete input: the straight run after 40 ticks (level 4, nine items eaten). -/
theorem C9_witness :
    Reachable sampleEnv (straightRun 40) ∧
    (((straightRun 40).gameWon = true ↔ 5 ≤ (straightRun 40).level) ∧
      (let s' := player_update sampleEnv (straightRun 40) (-1) 41000 (straightDraws 41)
       ((straightRun 40).gameWon = false ∧ s'.gameWon = true) ↔
         ((straightRun 40).level = 4 ∧ s'.level = 5))) :=
  ⟨straightRun_reachable 40,
    C9_win_condition sampleEnv (straightRun 40) (straightRun_reachable 40) (-1) 41000
      (straightDraws 41)⟩

/-- What the code does keep about the terminal flags: in every reachable state `gameOver`
is true exactly when `lives = 0`, and no single `player_update` call takes a state with
both flags false to a state with both flags true. -/
theorem reachable_terminal_flags (E : Env) (s : GameState) (h : Reachable E s)
    (input : Int) (currentTime : Nat) (rng : Nat → Nat) :
    (s.gameOver = true ↔ s.lives = 0) ∧
    (s.gameOver = false → s.gameWon = false →
      ¬ ((player_update E s input currentTime rng).gameOver = true ∧
        (player_update E s input currentTime rng).gameWon = true)) := by
  obtain ⟨-, -, -, -, -, i6, i7⟩ := reachable_counters E s h
  refine ⟨?_, ?_⟩
  · constructor
    · intro hg
      have := i6.1 hg
      omega
    · intro hl
      exact i6.2 (by omega)
  · intro hgo hgw
    have hc := player_update_counters E s input currentTime rng
    simp only at hc
    rcases hc with ⟨-, -, -, c4, -, c6⟩ | ⟨-, -, -, -, c4, -⟩ | ⟨-, c1, -⟩
    · rw [c4, c6, hgo]
      rintro ⟨h1, -⟩
      exact Bool.noConfusion h1
    · rw [c4, hgw]
      rintro ⟨-, h1⟩
      exact Bool.noConfusion h1
    · rw [c1]
      rintro ⟨h1, -⟩
      exact Bool.noConfusion h1

/-- C10, evaluated on the code: the state after 66 ticks of the straight run is reachable
and has `gameOver` and `gameWon` both true. The game was won at the 40th item (level 5);
`move_snake` stops on `gameOver` only, so play went on to level 7 until the last life was
lost. -/
theorem C10_both_terminal_flags_set :
    Reachable sampleEnv (straightRun 66) ∧
    (straightRun 66).gameOver = true ∧ (straightRun 66).gameWon = true ∧
    (straightRun 66).lives = 0 ∧ (straightRun 66).level = 7 :=
  ⟨straightRun_reachable 66, straightRun_end.1, straightRun_end.2.1, straightRun_end.2.2.1,
    straightRun_end.2.2.2.2⟩

/-! ## Body, food and speed: further facts -/

/-- Reading a cell after `segments[i].position = p`. -/
theorem segAt_setPos (segs : Segments) (i j : Nat) (p : Vector) :
    segAt (setPos segs i p) j =
      if j = i ∧ i < MAX_SNAKE_LENGTH then { segAt segs i with position := p }
      else segAt segs j := by
  rw [setPos, segAt_setSeg]

/-- Reading a cell after `segments[i].active = b`. -/
theorem segAt_setActive (segs : Segments) (i j : Nat) (b : Bool) :
    segAt (setActive segs i b) j =
      if j = i ∧ i < MAX_SNAKE_LENGTH then { segAt segs i with active := b }
      else segAt segs j := by
  rw [setActive, segAt_setSeg]

/-- The shifting loop entered with loop variable `n`: every cell `1 .. n` takes the
position its predecessor had before the loop; nothing else changes. -/
theorem segAt_shift_body (n : Nat) :
    ∀ (segs : Segments) (j : Nat),
      segAt (shift_body n segs) j =
        if 1 ≤ j ∧ j ≤ n ∧ j < MAX_SNAKE_LENGTH then
          { segAt segs j with position := (segAt segs (j - 1)).position }
        else segAt segs j := by
  induction n with
  | zero => intro segs j; rw [shift_body, if_neg]; omega
  | succ n ih =>
    intro segs j
    rw [shift_body, ih]
    by_cases h1 : j = n + 1
    · subst h1
      have e1 : ¬ (1 ≤ n + 1 ∧ n + 1 ≤ n ∧ n + 1 < MAX_SNAKE_LENGTH) := by omega
      rw [if_neg e1, segAt_setPos]
      by_cases h2 : n + 1 < MAX_SNAKE_LENGTH
      · rw [if_pos ⟨rfl, h2⟩, if_pos ⟨by omega, le_refl _, h2⟩]
        rfl
      · rw [if_neg (fun h => h2 h.2), if_neg (fun h => h2 h.2.2)]
    · by_cases h2 : 1 ≤ j ∧ j ≤ n ∧ j < MAX_SNAKE_LENGTH
      · have e2 : 1 ≤ j ∧ j ≤ n + 1 ∧ j < MAX_SNAKE_LENGTH := by omega
        rw [if_pos h2, if_pos e2, segAt_setPos, segAt_setPos,
          if_neg (fun h => h1 h.1), if_neg (fun h => by omega)]
      · have e2 : ¬ (1 ≤ j ∧ j ≤ n + 1 ∧ j < MAX_SNAKE_LENGTH) := by omega
        rw [if_neg h2, if_neg e2, segAt_setPos, if_neg (fun h => h1 h.1)]

/-- The growing loop entered with loop variable `n`: every cell `1 .. n` takes the
position its predecessor had before the loop and becomes active. -/
theorem segAt_grow_body (n : Nat) :
    ∀ (segs : Segments) (j : Nat),
      segAt (grow_body n segs) j =
        if 1 ≤ j ∧ j ≤ n ∧ j < MAX_SNAKE_LENGTH then
          { position := (segAt segs (j - 1)).position, active := true }
        else segAt segs j := by
  induction n with
  | zero => intro segs j; rw [grow_body, if_neg]; omega
  | succ n ih =>
    intro segs j
    rw [grow_body, ih]
    by_cases h1 : j = n + 1
    · subst h1
      have e1 : ¬ (1 ≤ n + 1 ∧ n + 1 ≤ n ∧ n + 1 < MAX_SNAKE_LENGTH) := by omega
      rw [if_neg e1, segAt_setActive]
      by_cases h2 : n + 1 < MAX_SNAKE_LENGTH
      · rw [if_pos ⟨rfl, h2⟩, if_pos ⟨by omega, le_refl _, h2⟩, segAt_setPos,
          if_pos ⟨rfl, h2⟩]
        rfl
      · rw [if_neg (fun h => h2 h.2), if_neg (fun h => h2 h.2.2), segAt_setPos,
          if_neg (fun h => h2 h.2)]
    · by_cases h2 : 1 ≤ j ∧ j ≤ n ∧ j < MAX_SNAKE_LENGTH
      · have e2 : 1 ≤ j ∧ j ≤ n + 1 ∧ j < MAX_SNAKE_LENGTH := by omega
        rw [if_pos h2, if_pos e2, segAt_setActive, if_neg (fun h => by omega),
          segAt_setPos, if_neg (fun h => by omega)]
      · have e2 : ¬ (1 ≤ j ∧ j ≤ n + 1 ∧ j < MAX_SNAKE_LENGTH) := by omega
        rw [if_neg h2, if_neg e2, segAt_setActive, if_neg (fun h => h1 h.1), segAt_setPos,
          if_neg (fun h => h1 h.1)]

/-- The five ways a `player_update` call can go, each with the state it returns. -/
theorem player_update_cases (E : Env) (s : GameState) (input : Int) (t : Nat)
    (rng : Nat → Nat) :
    let b : GameState := { s with nextDirection := committed E s input }
    let c := candidate E s input
    let s' := player_update E s input t rng
    (s.gameOver = true ∧ s' = s) ∨
    (s.gameOver = false ∧ ¬ due s t ∧ s' = b) ∨
    (s.gameOver = false ∧ due s t ∧
      (check_collision_with_walls c = true ∨ check_collision_with_self s c = true) ∧
      s' = if s.lives - 1 ≤ 0 then { commit b t with lives := s.lives - 1, gameOver := true }
        else spawn_food E (init_snake { commit b t with lives := s.lives - 1 }) rng) ∨
    (s.gameOver = false ∧ due s t ∧ check_collision_with_walls c = false ∧
      check_collision_with_self s c = false ∧
      ¬ (s.food.active = true ∧ s.food.position = c) ∧
      s' = { commit b t with segments := setPos (shift_body (s.length - 1).toNat s.segments) 0 c }) ∨
    (s.gameOver = false ∧ due s t ∧ check_collision_with_walls c = false ∧
      check_collision_with_self s c = false ∧ s.food.active = true ∧ s.food.position = c ∧
      s' = if s.length < MAX_SNAKE_LENGTH then
          { spawn_food E { eat_food (commit b t) with segments := grow_body s.length.toNat s.segments, length := s.length + 1 } rng with segments := setPos (grow_body s.length.toNat s.segments) 0 c }
        else { eat_food (commit b t) with segments := setPos s.segments 0 c }) := by
  intro b c s'
  by_cases hover : s.gameOver = true
  · exact Or.inl ⟨hover, player_update_gameOver E s input t rng hover⟩
  have hplay : s.gameOver = false := by
    cases hg : s.gameOver
    · rfl
    · exact absurd hg hover
  have h0 : s' = move_snake E b t rng := player_update_playing E s input t rng hplay
  by_cases hdue : due s t
  swap
  · right; left
    have hearly : sub32 t s.lastMove < s.moveSpeed := Nat.lt_of_not_le hdue
    exact ⟨hplay, hdue, by rw [h0]; exact move_snake_throttled E b t rng hearly⟩
  by_cases hhit : check_collision_with_walls c = true ∨ check_collision_with_self s c = true
  · right; right; left
    exact ⟨hplay, hdue, hhit, by rw [h0]; exact move_snake_collision E b t rng hplay hdue hhit⟩
  have hwall : check_collision_with_walls c = false := by
    cases hw : check_collision_with_walls c
    · rfl
    · exact absurd (Or.inl hw) hhit
  have hself : check_collision_with_self s c = false := by
    cases hw : check_collision_with_self s c
    · rfl
    · exact absurd (Or.inr hw) hhit
  by_cases hfood : s.food.active = true ∧ s.food.position = c
  · right; right; right; right
    have hs' := move_snake_eat E b t rng hplay hdue hwall hself hfood.1 hfood.2
    have hfr := eat_food_frame (commit b t)
    have hlen : (eat_food (commit b t)).length = s.length := hfr.2.2.2.2.2.2.1
    have hseg : (eat_food (commit b t)).segments = s.segments := hfr.2.2.2.2.2.1
    rw [hlen, hseg] at hs'
    exact ⟨hplay, hdue, hwall, hself, hfood.1, hfood.2, by rw [h0]; exact hs'⟩
  · right; right; right; left
    exact ⟨hplay, hdue, hwall, hself, hfood, by
      rw [h0]; exact move_snake_plain E b t rng hplay hdue hwall hself hfood⟩

/-- Once `validPosition` is true the `while` loop of `spawn_food` does not run again. -/
theorem spawn_food_loop_valid (s : GameState) (rng : Nat → Nat) (fuel : Nat) (p : Vector)
    (a : Nat) : spawn_food_loop s rng fuel true p a = (p, a) := by
  cases fuel with
  | zero => rfl
  | succ n => simp [spawn_food_loop]

/-- The `while` loop of `spawn_food`, entered before attempt `a` with exactly the fuel the
remaining attempts need: it stops after some attempt `k` (`a ≤ k ≤ 99`) with the candidate
of that attempt; all earlier candidates were on the snake, and candidate `k` is off the
snake unless it is the last one. -/
theorem spawn_food_loop_spec (s : GameState) (rng : Nat → Nat) (fuel : Nat) :
    ∀ (a : Nat) (p : Vector), a + (fuel + 1) = 100 →
      ∃ k, a ≤ k ∧ k < 100 ∧
        spawn_food_loop s rng (fuel + 1) false p a = (foodCandidate rng k, k + 1) ∧
        (∀ j, a ≤ j → j < k → hitsSnake s (foodCandidate rng j) = true) ∧
        (hitsSnake s (foodCandidate rng k) = false ∨ k = 99) := by
  induction fuel with
  | zero =>
    intro a p ha
    have ha99 : a = 99 := by omega
    subst ha99
    refine ⟨99, le_refl _, by omega, ?_, fun j h1 h2 => by omega, Or.inr rfl⟩
    simp [spawn_food_loop]
  | succ n ih =>
    intro a p ha
    have ha100 : a < 100 := by omega
    cases hv : hitsSnake s (foodCandidate rng a) with
    | false =>
      refine ⟨a, le_refl _, ha100, ?_, fun j h1 h2 => by omega, Or.inl hv⟩
      rw [spawn_food_loop]
      simp only [Bool.not_false, Bool.true_and, decide_eq_true_eq, ha100, if_true, hv]
      exact spawn_food_loop_valid s rng (n + 1) _ _
    | true =>
      obtain ⟨k, hk1, hk2, hk3, hk4, hk5⟩ := ih (a + 1) (foodCandidate rng a) (by omega)
      refine ⟨k, by omega, hk2, ?_, ?_, hk5⟩
      · rw [spawn_food_loop]
        simp only [Bool.not_false, Bool.true_and, decide_eq_true_eq, ha100, if_true, hv,
          Bool.not_true]
        exact hk3
      · intro j h1 h2
        by_cases hj : j = a
        · rw [hj]; exact hv
        · exact hk4 j (by omega) h2

/-- What `spawn_food` ends with: the candidate of some attempt `k ≤ 99`, reached after
`k + 1` attempts. -/
theorem spawn_food_result_spec (s : GameState) (rng : Nat → Nat) :
    ∃ k, k < 100 ∧ spawn_food_result s rng = (foodCandidate rng k, k + 1) ∧
      (∀ j, j < k → hitsSnake s (foodCandidate rng j) = true) ∧
      (hitsSnake s (foodCandidate rng k) = false ∨ k = 99) := by
  obtain ⟨k, -, hk2, hk3, hk4, hk5⟩ := spawn_food_loop_spec s rng 99 0 ⟨0, 0⟩ (by omega)
  exact ⟨k, hk2, hk3, fun j hj => hk4 j (Nat.zero_le _) hj, hk5⟩

/-- Every food candidate is a grid cell inside the field. -/
theorem foodCandidate_grid (rng : Nat → Nat) (k : Nat) :
    0 ≤ (foodCandidate rng k).x ∧ (foodCandidate rng k).x < SCREEN_SIZE_X ∧
    0 ≤ (foodCandidate rng k).y ∧ (foodCandidate rng k).y < SCREEN_SIZE_Y ∧
    (foodCandidate rng k).x % SNAKE_SEGMENT_SIZE = 0 ∧
    (foodCandidate rng k).y % SNAKE_SEGMENT_SIZE = 0 := by
  simp only [foodCandidate, SCREEN_SIZE_X, SCREEN_SIZE_Y, SNAKE_SEGMENT_SIZE]
  omega

/-- The segment loop of `spawn_food` finds a hit exactly when some segment with index
below `length` sits at the position. -/
theorem hitsSnake_iff (s : GameState) (p : Vector) :
    hitsSnake s p = true ↔
      ∃ i : Nat, (i : Int) < s.length ∧ (segAt s.segments i).position = p := by
  unfold hitsSnake
  rw [List.any_eq_true]
  constructor
  · rintro ⟨i, hi, hp⟩
    rw [List.mem_range] at hi
    simp only [Bool.and_eq_true, beq_iff_eq] at hp
    refine ⟨i, by omega, ?_⟩
    cases hq : (segAt s.segments i).position with
    | mk qx qy =>
      rw [hq] at hp
      simp only at hp
      rw [hp.1, hp.2]
  · rintro ⟨i, h2, hp⟩
    refine ⟨i, ?_, ?_⟩
    · rw [List.mem_range]; omega
    · rw [hp]; simp

/-- What one `player_update` call does to the snake body: nothing; or the re-initialisation;
or one of the three moves (shift, grow, head only at full length), each with a candidate
head that hits neither wall nor body. -/
theorem player_update_body (E : Env) (s : GameState) (input : Int) (t : Nat)
    (rng : Nat → Nat) :
    let c := candidate E s input
    let s' := player_update E s input t rng
    (s'.length = s.length ∧ s'.segments = s.segments) ∨
    (s'.length = 3 ∧ ∀ j, j < MAX_SNAKE_LENGTH → segAt s'.segments j =
        if j < 3 then { position := ⟨144 - 8 * (j : Int), 120⟩, active := true }
        else { segAt s.segments j with active := false }) ∨
    (check_collision_with_walls c = false ∧ check_collision_with_self s c = false ∧
      ¬ (s.food.active = true ∧ s.food.position = c) ∧
      s'.length = s.length ∧ ∀ j, j < MAX_SNAKE_LENGTH → segAt s'.segments j =
        if j = 0 then { segAt s.segments 0 with position := c }
        else if (j : Int) ≤ s.length - 1 then
          { segAt s.segments j with position := (segAt s.segments (j - 1)).position }
        else segAt s.segments j) ∨
    (check_collision_with_walls c = false ∧ check_collision_with_self s c = false ∧
      s.food.active = true ∧ s.food.position = c ∧
      s.length < MAX_SNAKE_LENGTH ∧ s'.length = s.length + 1 ∧
      ∀ j, j < MAX_SNAKE_LENGTH → segAt s'.segments j =
        if j = 0 then { segAt s.segments 0 with position := c }
        else if (j : Int) ≤ s.length then
          { position := (segAt s.segments (j - 1)).position, active := true }
        else segAt s.segments j) ∨
    (check_collision_with_walls c = false ∧ check_collision_with_self s c = false ∧
      s.food.active = true ∧ s.food.position = c ∧
      ¬ s.length < MAX_SNAKE_LENGTH ∧ s'.length = s.length ∧
      ∀ j, j < MAX_SNAKE_LENGTH → segAt s'.segments j =
        if j = 0 then { segAt s.segments 0 with position := c } else segAt s.segments j) := by
  intro c s'
  have hc := player_update_cases E s input t rng
  simp only at hc
  rcases hc with ⟨-, h⟩ | ⟨-, -, h⟩ | ⟨-, -, -, h⟩ | ⟨-, -, hw, hs, hf, h⟩ |
    ⟨-, -, hw, hs, hf1, hf2, h⟩
  · left
    show (player_update E s input t rng).length = _ ∧ (player_update E s input t rng).segments = _
    rw [h]; exact ⟨rfl, rfl⟩
  · left
    show (player_update E s input t rng).length = _ ∧ (player_update E s input t rng).segments = _
    rw [h]; exact ⟨rfl, rfl⟩
  · by_cases hl : s.lives - 1 ≤ 0
    · left
      show (player_update E s input t rng).length = _ ∧ (player_update E s input t rng).segments = _
      rw [h, if_pos hl]; exact ⟨rfl, rfl⟩
    · right; left
      show (player_update E s input t rng).length = _ ∧
        ∀ j, j < MAX_SNAKE_LENGTH → segAt (player_update E s input t rng).segments j = _
      rw [h, if_neg hl]
      refine ⟨rfl, fun j hj => ?_⟩
      rw [spawn_food_segments, segAt_init_snake _ j hj]
      rfl
  · right; right; left
    refine ⟨hw, hs, hf, ?_⟩
    show (player_update E s input t rng).length = _ ∧
      ∀ j, j < MAX_SNAKE_LENGTH → segAt (player_update E s input t rng).segments j = _
    rw [h]
    refine ⟨rfl, fun j hj => ?_⟩
    show segAt (setPos (shift_body (s.length - 1).toNat s.segments) 0 c) j = _
    rw [segAt_setPos, segAt_shift_body, segAt_shift_body]
    by_cases h0 : j = 0
    · subst h0
      rw [if_pos ⟨rfl, by decide⟩, if_neg (by omega), if_pos rfl]
    · rw [if_neg (fun hh => h0 hh.1), if_neg h0]
      by_cases h1 : (j : Int) ≤ s.length - 1
      · rw [if_pos (by omega), if_pos h1]
      · rw [if_neg (by omega), if_neg h1]
  · by_cases hl : s.length < MAX_SNAKE_LENGTH
    · right; right; right; left
      refine ⟨hw, hs, hf1, hf2, hl, ?_⟩
      show (player_update E s input t rng).length = _ ∧
        ∀ j, j < MAX_SNAKE_LENGTH → segAt (player_update E s input t rng).segments j = _
      rw [h, if_pos hl]
      refine ⟨rfl, fun j hj => ?_⟩
      show segAt (setPos (grow_body s.length.toNat s.segments) 0 c) j = _
      rw [segAt_setPos, segAt_grow_body, segAt_grow_body]
      by_cases h0 : j = 0
      · subst h0
        rw [if_pos ⟨rfl, by decide⟩, if_neg (by omega), if_pos rfl]
      · rw [if_neg (fun hh => h0 hh.1), if_neg h0]
        by_cases h1 : (j : Int) ≤ s.length
        · rw [if_pos (by omega), if_pos h1]
        · rw [if_neg (by omega), if_neg h1]
    · right; right; right; right
      refine ⟨hw, hs, hf1, hf2, hl, ?_⟩
      show (player_update E s input t rng).length = _ ∧
        ∀ j, j < MAX_SNAKE_LENGTH → segAt (player_update E s input t rng).segments j = _
      rw [h, if_neg hl]
      have hlen : (eat_food (commit { s with nextDirection := committed E s input } t)).length = s.length :=
        (eat_food_frame _).2.2.2.2.2.2.1
      refine ⟨hlen, fun j hj => ?_⟩
      show segAt (setPos s.segments 0 c) j = _
      rw [segAt_setPos]
      by_cases h0 : j = 0
      · subst h0
        rw [if_pos ⟨rfl, by decide⟩, if_pos rfl]
      · rw [if_neg (fun hh => h0 hh.1), if_neg h0]

/-- The wall check fails exactly for positions inside the field. -/
theorem walls_false_iff (p : Vector) :
    check_collision_with_walls p = false ↔
      0 ≤ p.x ∧ p.x < SCREEN_SIZE_X ∧ 0 ≤ p.y ∧ p.y < SCREEN_SIZE_Y := by
  unfold check_collision_with_walls
  simp only [Bool.or_eq_false_iff, decide_eq_false_iff_not, SCREEN_SIZE_X, SCREEN_SIZE_Y]
  omega

/-- A step always leaves the cell it starts from. -/
theorem step_head_ne (p : Vector) (d : Direction) : step_head p d ≠ p := by
  intro h
  cases d
  · have := congrArg Vector.y h; simp only [step_head, SNAKE_SEGMENT_SIZE] at this; omega
  · have := congrArg Vector.y h; simp only [step_head, SNAKE_SEGMENT_SIZE] at this; omega
  · have := congrArg Vector.x h; simp only [step_head, SNAKE_SEGMENT_SIZE] at this; omega
  · have := congrArg Vector.x h; simp only [step_head, SNAKE_SEGMENT_SIZE] at this; omega

/-- A step from a grid position ends on a grid position. -/
theorem step_head_aligned (p : Vector) (d : Direction)
    (hx : p.x % SNAKE_SEGMENT_SIZE = 0) (hy : p.y % SNAKE_SEGMENT_SIZE = 0) :
    (step_head p d).x % SNAKE_SEGMENT_SIZE = 0 ∧ (step_head p d).y % SNAKE_SEGMENT_SIZE = 0 := by
  simp only [SNAKE_SEGMENT_SIZE] at hx hy ⊢
  cases d <;> simp only [step_head, SNAKE_SEGMENT_SIZE] <;> omega

/-- The facts about the snake body that hold in every reachable state: the length lies in
`3 .. 100`, exactly the cells below `length` are active, and the cells below `length` lie
inside the field, on the grid, at pairwise different positions. -/
theorem reachable_body (E : Env) (s : GameState) (h : Reachable E s) :
    3 ≤ s.length ∧ s.length ≤ MAX_SNAKE_LENGTH ∧
    (∀ i : Nat, i < MAX_SNAKE_LENGTH →
      (segAt s.segments i).active = decide ((i : Int) < s.length)) ∧
    (∀ i : Nat, (i : Int) < s.length →
      check_collision_with_walls (segAt s.segments i).position = false ∧
      (segAt s.segments i).position.x % SNAKE_SEGMENT_SIZE = 0 ∧
      (segAt s.segments i).position.y % SNAKE_SEGMENT_SIZE = 0) ∧
    (∀ i j : Nat, (i : Int) < s.length → (j : Int) < s.length → i ≠ j →
      (segAt s.segments i).position ≠ (segAt s.segments j).position) := by
  have hinit : ∀ (s' s0 : GameState), s'.length = 3 →
      (∀ j, j < MAX_SNAKE_LENGTH → segAt s'.segments j =
        if j < 3 then { position := ⟨144 - 8 * (j : Int), 120⟩, active := true }
        else { segAt s0.segments j with active := false }) →
      (3 ≤ s'.length ∧ s'.length ≤ MAX_SNAKE_LENGTH ∧
      (∀ i : Nat, i < MAX_SNAKE_LENGTH →
        (segAt s'.segments i).active = decide ((i : Int) < s'.length)) ∧
      (∀ i : Nat, (i : Int) < s'.length →
        check_collision_with_walls (segAt s'.segments i).position = false ∧
        (segAt s'.segments i).position.x % SNAKE_SEGMENT_SIZE = 0 ∧
        (segAt s'.segments i).position.y % SNAKE_SEGMENT_SIZE = 0) ∧
      (∀ i j : Nat, (i : Int) < s'.length → (j : Int) < s'.length → i ≠ j →
        (segAt s'.segments i).position ≠ (segAt s'.segments j).position)) := by
    intro s' s0 hlen hseg
    rw [hlen]
    refine ⟨le_refl _, by decide, ?_, ?_, ?_⟩
    · intro i hi
      rw [hseg i hi]
      by_cases h3 : i < 3
      · rw [if_pos h3]; simp; omega
      · rw [if_neg h3]; simp; omega
    · intro i hi
      have h3 : i < 3 := by omega
      rw [hseg i (by show i < 100; omega), if_pos h3, walls_false_iff]
      simp only [SCREEN_SIZE_X, SCREEN_SIZE_Y, SNAKE_SEGMENT_SIZE]
      omega
    · intro i j hi hj hij
      have h3 : i < 3 := by omega
      have h4 : j < 3 := by omega
      rw [hseg i (by show i < 100; omega), hseg j (by show j < 100; omega), if_pos h3, if_pos h4]
      intro he
      have := congrArg Vector.x he
      simp only at this
      omega
  induction h with
  | reset s0 rng =>
    apply hinit _ (reset_fields s0) rfl
    intro j hj
    rw [reset_game, spawn_food_segments, segAt_init_snake _ j hj]
  | update hr input t rng ih =>
    rename_i s
    obtain ⟨i1, i2, i3, i4, i5⟩ := ih
    have hb := player_update_body E s input t rng
    simp only at hb
    rcases hb with ⟨b1, b2⟩ | ⟨b1, b2⟩ | ⟨hw, hs, -, b1, b2⟩ | ⟨hw, hs, -, -, hl, b1, b2⟩ |
      ⟨hw, hs, -, -, hl, b1, b2⟩
    · rw [b1, b2]; exact ⟨i1, i2, i3, i4, i5⟩
    · exact hinit _ s b1 b2
    · -- the body shifts
      have i2' : s.length ≤ 100 := i2
      have hc0 := i4 0 (by omega)
      have hcal := step_head_aligned (segAt s.segments 0).position (committed E s input) hc0.2.1 hc0.2.2
      have hcne : candidate E s input ≠ (segAt s.segments 0).position := step_head_ne _ _
      have hself : ∀ k : Nat, 1 ≤ k → (k : Int) < s.length →
          (segAt s.segments k).position ≠ candidate E s input := by
        intro k hk1 hk2 he
        have := (check_collision_with_self_iff s (candidate E s input)).2 ⟨k, hk1, hk2, he⟩
        rw [hs] at this
        exact Bool.false_ne_true this
      have hP0 : (segAt (player_update E s input t rng).segments 0).position = candidate E s input := by
        rw [b2 0 (by decide), if_pos rfl]
      have hPk : ∀ k : Nat, 1 ≤ k → (k : Int) < s.length →
          (segAt (player_update E s input t rng).segments k).position = (segAt s.segments (k - 1)).position := by
        intro k hk1 hk2
        rw [b2 k (by show k < 100; omega), if_neg (by omega), if_pos (by omega)]
      rw [b1]
      refine ⟨i1, i2, ?_, ?_, ?_⟩
      · intro i hi
        rw [← i3 i hi, b2 i hi]
        split_ifs <;> first | rfl | (subst_vars; rfl)
      · intro i hi
        by_cases h0 : i = 0
        · subst h0
          rw [hP0]
          exact ⟨hw, hcal⟩
        · rw [hPk i (by omega) hi]
          exact i4 (i - 1) (by omega)
      · intro i j hi hj hij
        by_cases h0 : i = 0
        · subst h0
          rw [hP0, hPk j (by omega) hj]
          by_cases h1 : j = 1
          · subst h1; exact hcne
          · exact fun he => hself (j - 1) (by omega) (by omega) he.symm
        · rw [hPk i (by omega) hi]
          by_cases h1 : j = 0
          · subst h1
            rw [hP0]
            by_cases h2 : i = 1
            · subst h2; exact fun he => hcne he.symm
            · exact hself (i - 1) (by omega) (by omega)
          · rw [hPk j (by omega) hj]
            exact i5 (i - 1) (j - 1) (by omega) (by omega) (by omega)
    · -- the body grows
      have hl' : s.length < 100 := hl
      have hc0 := i4 0 (by omega)
      have hcal := step_head_aligned (segAt s.segments 0).position (committed E s input) hc0.2.1 hc0.2.2
      have hcne : candidate E s input ≠ (segAt s.segments 0).position := step_head_ne _ _
      have hself : ∀ k : Nat, 1 ≤ k → (k : Int) < s.length →
          (segAt s.segments k).position ≠ candidate E s input := by
        intro k hk1 hk2 he
        have := (check_collision_with_self_iff s (candidate E s input)).2 ⟨k, hk1, hk2, he⟩
        rw [hs] at this
        exact Bool.false_ne_true this
      have hP0 : (segAt (player_update E s input t rng).segments 0).position = candidate E s input := by
        rw [b2 0 (by decide), if_pos rfl]
      have hPk : ∀ k : Nat, 1 ≤ k → (k : Int) < s.length + 1 →
          (segAt (player_update E s input t rng).segments k).position = (segAt s.segments (k - 1)).position := by
        intro k hk1 hk2
        rw [b2 k (by show k < 100; omega), if_neg (by omega), if_pos (by omega)]
      rw [b1]
      refine ⟨by omega, by show s.length + 1 ≤ 100; omega, ?_, ?_, ?_⟩
      · intro i hi
        rw [b2 i hi]
        by_cases h0 : i = 0
        · subst h0
          rw [if_pos rfl]
          show (segAt s.segments 0).active = _
          rw [i3 0 hi]
          simp only [decide_eq_decide]
          omega
        · rw [if_neg h0]
          by_cases h1 : (i : Int) ≤ s.length
          · rw [if_pos h1]
            simp only [true_eq_decide_iff]
            omega
          · rw [if_neg h1, i3 i hi]
            simp only [decide_eq_decide]
            omega
      · intro i hi
        by_cases h0 : i = 0
        · subst h0
          rw [hP0]
          exact ⟨hw, hcal⟩
        · rw [hPk i (by omega) hi]
          exact i4 (i - 1) (by omega)
      · intro i j hi hj hij
        by_cases h0 : i = 0
        · subst h0
          rw [hP0, hPk j (by omega) hj]
          by_cases h1 : j = 1
          · subst h1; exact hcne
          · exact fun he => hself (j - 1) (by omega) (by omega) he.symm
        · rw [hPk i (by omega) hi]
          by_cases h1 : j = 0
          · subst h1
            rw [hP0]
            by_cases h2 : i = 1
            · subst h2; exact fun he => hcne he.symm
            · exact hself (i - 1) (by omega) (by omega)
          · rw [hPk j (by omega) hj]
            exact i5 (i - 1) (j - 1) (by omega) (by omega) (by omega)
    · -- full length: only the head moves
      have i2' : s.length ≤ 100 := i2
      have hc0 := i4 0 (by omega)
      have hcal := step_head_aligned (segAt s.segments 0).position (committed E s input) hc0.2.1 hc0.2.2
      have hself : ∀ k : Nat, 1 ≤ k → (k : Int) < s.length →
          (segAt s.segments k).position ≠ candidate E s input := by
        intro k hk1 hk2 he
        have := (check_collision_with_self_iff s (candidate E s input)).2 ⟨k, hk1, hk2, he⟩
        rw [hs] at this
        exact Bool.false_ne_true this
      have hP0 : (segAt (player_update E s input t rng).segments 0).position = candidate E s input := by
        rw [b2 0 (by decide), if_pos rfl]
      have hPk : ∀ k : Nat, 1 ≤ k → (k : Int) < s.length →
          segAt (player_update E s input t rng).segments k = segAt s.segments k := by
        intro k hk1 hk2
        rw [b2 k (by show k < 100; omega), if_neg (by omega)]
      rw [b1]
      refine ⟨i1, i2, ?_, ?_, ?_⟩
      · intro i hi
        rw [← i3 i hi, b2 i hi]
        split_ifs <;> first | rfl | (subst_vars; rfl)
      · intro i hi
        by_cases h0 : i = 0
        · subst h0
          rw [hP0]
          exact ⟨hw, hcal⟩
        · rw [hPk i (by omega) hi]
          exact i4 i hi
      · intro i j hi hj hij
        by_cases h0 : i = 0
        · subst h0
          rw [hP0, hPk j (by omega) hj]
          exact fun he => hself j (by omega) hj he.symm
        · rw [hPk i (by omega) hi]
          by_cases h1 : j = 0
          · subst h1
            rw [hP0]
            exact hself i (by omega) hi
          · rw [hPk j (by omega) hj]
            exact i5 i j hi hj hij

/-- A 32-bit subtraction that does not wrap is the ordinary one. -/
theorem sub32_of_le (a b : Nat) (hb : b ≤ a) (ha : a < 4294967296) : sub32 a b = a - b := by
  unfold sub32; omega

/-- The food `spawn_food` leaves: active, red, on one of the first 100 candidates. -/
theorem spawn_food_food (E : Env) (g : GameState) (rng : Nat → Nat) :
    ∃ k, k < 100 ∧ (spawn_food E g rng).food =
      { position := foodCandidate rng k, active := true, color := E.TFT_RED } := by
  obtain ⟨k, hk, hr, -⟩ := spawn_food_result_spec g rng
  refine ⟨k, hk, ?_⟩
  show ({ position := (spawn_food_result g rng).1, active := true, color := E.TFT_RED } : Food) = _
  rw [hr]

/-- A `player_update` call leaves `moveSpeed` alone or applies the speed-up of `eat_food`. -/
theorem player_update_moveSpeed (E : Env) (s : GameState) (input : Int) (t : Nat)
    (rng : Nat → Nat) :
    (player_update E s input t rng).moveSpeed = s.moveSpeed ∨
    (player_update E s input t rng).moveSpeed =
      if s.moveSpeed > MIN_SPEED then sub32 s.moveSpeed SPEED_INCREASE else s.moveSpeed := by
  have hc := player_update_cases E s input t rng
  simp only at hc
  rcases hc with ⟨-, h⟩ | ⟨-, -, h⟩ | ⟨-, -, -, h⟩ | ⟨-, -, -, -, -, h⟩ | ⟨-, -, -, -, -, -, h⟩
  · left; rw [h]
  · left; rw [h]
  · left; rw [h]; split_ifs <;> rfl
  · left; rw [h]; rfl
  · right
    have e1 : (player_update E s input t rng).moveSpeed =
        (eat_food (commit { s with nextDirection := committed E s input } t)).moveSpeed := by
      rw [h]; split_ifs <;> rfl
    exact e1.trans (eat_food_moveSpeed _)

/-- A `player_update` call leaves the food alone, or deactivates it (eating at full
length), or replaces it by what `spawn_food` places: an active food on one of the first
100 candidates. -/
theorem player_update_food (E : Env) (s : GameState) (input : Int) (t : Nat)
    (rng : Nat → Nat) :
    (player_update E s input t rng).food = s.food ∨
    (player_update E s input t rng).food = { s.food with active := false } ∨
    ∃ k, k < 100 ∧ (player_update E s input t rng).food =
      { position := foodCandidate rng k, active := true, color := E.TFT_RED } := by
  have hc := player_update_cases E s input t rng
  simp only at hc
  rcases hc with ⟨-, h⟩ | ⟨-, -, h⟩ | ⟨-, -, -, h⟩ | ⟨-, -, -, -, -, h⟩ | ⟨-, -, -, -, -, -, h⟩
  · left; rw [h]
  · left; rw [h]
  · by_cases hl : s.lives - 1 ≤ 0
    · left; rw [h, if_pos hl]; rfl
    · right; right
      rw [h, if_neg hl]
      exact spawn_food_food E _ rng
  · left; rw [h]; rfl
  · by_cases hl : s.length < MAX_SNAKE_LENGTH
    · right; right
      rw [h, if_pos hl]
      exact spawn_food_food E _ rng
    · right; left
      rw [h, if_neg hl]
      exact (eat_food_frame _).2.2.2.2.2.2.2.2.2

/-- The speed facts that hold in every reachable state. -/
theorem reachable_speed (E : Env) (s : GameState) (h : Reachable E s) :
    MIN_SPEED ≤ s.moveSpeed ∧ s.moveSpeed ≤ INITIAL_SPEED ∧ s.moveSpeed % SPEED_INCREASE = 0 := by
  induction h with
  | reset s0 rng =>
    show MIN_SPEED ≤ INITIAL_SPEED ∧ INITIAL_SPEED ≤ INITIAL_SPEED ∧ INITIAL_SPEED % SPEED_INCREASE = 0
    decide
  | update hr input t rng ih =>
    rename_i s
    obtain ⟨i1, i2, i3⟩ := ih
    simp only [MIN_SPEED, INITIAL_SPEED, SPEED_INCREASE] at i1 i2 i3 ⊢
    rcases player_update_moveSpeed E s input t rng with h | h
    · rw [h]; exact ⟨i1, i2, i3⟩
    · rw [h]
      simp only [MIN_SPEED, SPEED_INCREASE]
      split_ifs with hgt
      · rw [sub32_of_le _ _ (by omega) (by omega)]; omega
      · exact ⟨i1, i2, i3⟩

/-- The food of every reachable state lies inside the field, on the grid. -/
theorem reachable_food (E : Env) (s : GameState) (h : Reachable E s) :
    0 ≤ s.food.position.x ∧ s.food.position.x < SCREEN_SIZE_X ∧
    0 ≤ s.food.position.y ∧ s.food.position.y < SCREEN_SIZE_Y ∧
    s.food.position.x % SNAKE_SEGMENT_SIZE = 0 ∧ s.food.position.y % SNAKE_SEGMENT_SIZE = 0 := by
  induction h with
  | reset s0 rng =>
    obtain ⟨k, -, hk⟩ := spawn_food_food E (init_snake (reset_fields s0)) rng
    rw [reset_game, hk]
    exact foodCandidate_grid rng k
  | update hr input t rng ih =>
    rename_i s
    rcases player_update_food E s input t rng with h | h | ⟨k, -, h⟩
    · rw [h]; exact ih
    · rw [h]; exact ih
    · rw [h]; exact foodCandidate_grid rng k

/-- A growing or shifting loop entered with loop variable `n` touches no index above `n`. -/
theorem mem_loop_indices (n i : Nat) (h : i ∈ loop_indices n) : i ≤ n := by
  induction n with
  | zero => simp [loop_indices] at h
  | succ n ih =>
    simp only [loop_indices, List.mem_cons] at h
    rcases h with h | h | h
    · omega
    · omega
    · have := ih h; omega

/-- A growing tick: the state `player_update` returns is `spawn_food` on the grown state,
followed by the write of the head. -/
theorem player_update_growing (E : Env) (s : GameState) (input : Int) (t : Nat)
    (rng : Nat → Nat) (hplay : s.gameOver = false) (hsmall : s.length < MAX_SNAKE_LENGTH)
    (hdue : due s t)
    (hwall : check_collision_with_walls (candidate E s input) = false)
    (hself : check_collision_with_self s (candidate E s input) = false)
    (hact : s.food.active = true) (hpos : s.food.position = candidate E s input) :
    player_update E s input t rng =
      { spawn_food E (grown E s input t) rng with segments := setPos (grown E s input t).segments 0 (candidate E s input) } := by
  have hs' := move_snake_eat E { s with nextDirection := committed E s input } t rng hplay hdue hwall hself hact hpos
  rw [← player_update_playing E s input t rng hplay] at hs'
  have hfr := eat_food_frame (commit { s with nextDirection := committed E s input } t)
  have hlen : (eat_food (commit { s with nextDirection := committed E s input } t)).length = s.length := hfr.2.2.2.2.2.2.1
  have hseg : (eat_food (commit { s with nextDirection := committed E s input } t)).segments = s.segments := hfr.2.2.2.2.2.1
  rw [hlen, hseg, if_pos hsmall] at hs'
  exact hs'

/-- In a growing tick whose `spawn_food` ends on a candidate it found off the snake, the
new food is off every body cell `1 .. length - 1` of the returned state (the cells the
check looked at); the head cell is written afterwards and is not covered. -/
theorem growing_tick_food_off_body (E : Env) (s : GameState) (input : Int) (t : Nat)
    (rng : Nat → Nat) (hplay : s.gameOver = false) (hsmall : s.length < MAX_SNAKE_LENGTH)
    (hdue : due s t)
    (hwall : check_collision_with_walls (candidate E s input) = false)
    (hself : check_collision_with_self s (candidate E s input) = false)
    (hact : s.food.active = true) (hpos : s.food.position = candidate E s input)
    (hvalid : hitsSnake (grown E s input t) (spawn_food_result (grown E s input t) rng).1 = false) :
    ∀ i : Nat, 1 ≤ i → (i : Int) < (player_update E s input t rng).length →
      (segAt (player_update E s input t rng).segments i).position ≠
        (player_update E s input t rng).food.position := by
  have hs' := player_update_growing E s input t rng hplay hsmall hdue hwall hself hact hpos
  intro i h1 h2 he
  rw [hs'] at h2 he
  have h2' : (i : Int) < (grown E s input t).length := h2
  have he' : (segAt (setPos (grown E s input t).segments 0 (candidate E s input)) i).position =
      (spawn_food_result (grown E s input t) rng).1 := he
  rw [segAt_setPos, if_neg (by omega)] at he'
  have := (hitsSnake_iff (grown E s input t) _).2 ⟨i, h2', he'⟩
  rw [hvalid] at this
  exact Bool.false_ne_true this

set_option maxRecDepth 100000 in
/-- The straight run after 40 ticks stands before the winning tick (level 4, nine items
eaten, food on the candidate head); tick 41 sets `gameWon`, increments `length` and leaves
an active food. -/
theorem straightRun_winning_tick :
    ((straightRun 40).gameOver = false ∧ (straightRun 40).level = 4 ∧
      (straightRun 40).foodEaten = 9 ∧ due (straightRun 40) 41000 ∧
      check_collision_with_walls (candidate sampleEnv (straightRun 40) (-1)) = false ∧
      check_collision_with_self (straightRun 40) (candidate sampleEnv (straightRun 40) (-1)) =
        false ∧
      (straightRun 40).food.active = true ∧
      (straightRun 40).food.position = candidate sampleEnv (straightRun 40) (-1)) ∧
    ((player_update sampleEnv (straightRun 40) (-1) 41000 (straightDraws 41)).gameWon = true ∧
      (player_update sampleEnv (straightRun 40) (-1) 41000 (straightDraws 41)).length =
        (straightRun 40).length + 1 ∧
      (player_update sampleEnv (straightRun 40) (-1) 41000 (straightDraws 41)).food.active =
        true) := by
  decide

/-! ## The claims, continued -/

/-- C11. Length and active flags: in every reachable state `0 ≤ length ≤ 100`, every cell
with index below `length` is active and every cell with index from `length` on is
inactive; and every index that `move_snake`, `init_snake` and `spawn_food` read or write
in `segments` when called in that state is below 100. -/
theorem C11_length_and_active_flags (E : Env) (s : GameState) (h : Reachable E s) :
    (0 ≤ s.length ∧ s.length ≤ MAX_SNAKE_LENGTH) ∧
    (∀ i : Nat, i < MAX_SNAKE_LENGTH → (i : Int) < s.length →
      (segAt s.segments i).active = true) ∧
    (∀ i : Nat, i < MAX_SNAKE_LENGTH → s.length ≤ (i : Int) →
      (segAt s.segments i).active = false) ∧
    (∀ i : Nat, i ∈ move_snake_indices s ++ init_snake_indices ++ spawn_food_indices s.length →
      i < MAX_SNAKE_LENGTH) := by
  obtain ⟨i1, i2, i3, -, -⟩ := reachable_body E s h
  have i2' : s.length ≤ 100 := i2
  refine ⟨⟨by omega, i2⟩, ?_, ?_, ?_⟩
  · intro i hi hlt
    rw [i3 i hi]
    exact decide_eq_true hlt
  · intro i hi hle
    rw [i3 i hi]
    exact decide_eq_false (by omega)
  · intro i hi
    show i < 100
    have e97 : MAX_SNAKE_LENGTH - 3 = 97 := rfl
    simp only [e97, move_snake_indices, init_snake_indices, spawn_food_indices, List.mem_append,
      List.mem_singleton, List.mem_range'_1, List.mem_range] at hi
    rcases hi with ((((((h0 | h0) | h0) | h0) | (h0 | h0)) | h0) | (h0 | h0)) | h0
    · omega
    · omega
    · have := mem_loop_indices _ _ h0; omega
    · split_ifs at h0 with hl
      · have hl' : s.length < 100 := hl
        rw [List.mem_append, List.mem_range] at h0
        rcases h0 with h0 | h0
        · have := mem_loop_indices _ _ h0; omega
        · omega
      · simp at h0
    · omega
    · omega
    · omega
    · omega
    · omega
    · omega

/-- C11 at a concrete input: the straight run after 30 ticks. -/
theorem C11_witness :
    Reachable sampleEnv (straightRun 30) ∧
    ((0 ≤ (straightRun 30).length ∧ (straightRun 30).length ≤ MAX_SNAKE_LENGTH) ∧
      (∀ i : Nat, i < MAX_SNAKE_LENGTH → (i : Int) < (straightRun 30).length →
        (segAt (straightRun 30).segments i).active = true) ∧
      (∀ i : Nat, i < MAX_SNAKE_LENGTH → (straightRun 30).length ≤ (i : Int) →
        (segAt (straightRun 30).segments i).active = false) ∧
      (∀ i : Nat,
        i ∈ move_snake_indices (straightRun 30) ++ init_snake_indices ++
          spawn_food_indices (straightRun 30).length →
        i < MAX_SNAKE_LENGTH)) :=
  ⟨straightRun_reachable 30,
    C11_length_and_active_flags sampleEnv (straightRun 30) (straightRun_reachable 30)⟩

/-- C12. Speed bounds: in every reachable state `50 ≤ moveSpeed ≤ 200`; a `player_update`
call never returns a larger `moveSpeed`; and whenever the code subtracts
(`moveSpeed > MIN_SPEED`), the 32-bit subtraction `moveSpeed - 10` is the exact difference
(no wrap-around) and is still at least 50. -/
theorem C12_speed_bounds (E : Env) (s : GameState) (h : Reachable E s) (input : Int)
    (currentTime : Nat) (rng : Nat → Nat) :
    (MIN_SPEED ≤ s.moveSpeed ∧ s.moveSpeed ≤ INITIAL_SPEED) ∧
    (player_update E s input currentTime rng).moveSpeed ≤ s.moveSpeed ∧
    (s.moveSpeed > MIN_SPEED →
      (sub32 s.moveSpeed SPEED_INCREASE : Int) = (s.moveSpeed : Int) - (SPEED_INCREASE : Int) ∧
      MIN_SPEED ≤ sub32 s.moveSpeed SPEED_INCREASE) := by
  obtain ⟨i1, i2, i3⟩ := reachable_speed E s h
  simp only [MIN_SPEED, INITIAL_SPEED, SPEED_INCREASE] at i1 i2 i3 ⊢
  refine ⟨⟨i1, i2⟩, ?_, ?_⟩
  · rcases player_update_moveSpeed E s input currentTime rng with h | h
    · rw [h]
    · rw [h]
      simp only [MIN_SPEED, SPEED_INCREASE]
      split_ifs with hgt
      · rw [sub32_of_le _ _ (by omega) (by omega)]; omega
      · exact le_refl _
  · intro hgt
    rw [sub32_of_le _ _ (by omega) (by omega)]
    omega

/-- C12 at a concrete input: the straight run after 5 ticks. -/
theorem C12_witness :
    Reachable sampleEnv (straightRun 5) ∧
    ((MIN_SPEED ≤ (straightRun 5).moveSpeed ∧ (straightRun 5).moveSpeed ≤ INITIAL_SPEED) ∧
      (player_update sampleEnv (straightRun 5) (-1) 6000 (straightDraws 6)).moveSpeed ≤
        (straightRun 5).moveSpeed ∧
      ((straightRun 5).moveSpeed > MIN_SPEED →
        (sub32 (straightRun 5).moveSpeed SPEED_INCREASE : Int) =
          ((straightRun 5).moveSpeed : Int) - (SPEED_INCREASE : Int) ∧
        MIN_SPEED ≤ sub32 (straightRun 5).moveSpeed SPEED_INCREASE)) :=
  ⟨straightRun_reachable 5,
    C12_speed_bounds sampleEnv (straightRun 5) (straightRun_reachable 5) (-1) 6000
      (straightDraws 6)⟩

/-- C13. Grid alignment: in every reachable state both coordinates of every segment with
index below `length`, and both coordinates of the food position, are multiples of
`SNAKE_SEGMENT_SIZE` (8). -/
theorem C13_grid_alignment (E : Env) (s : GameState) (h : Reachable E s) :
    (∀ i : Nat, (i : Int) < s.length →
      SNAKE_SEGMENT_SIZE ∣ (segAt s.segments i).position.x ∧
      SNAKE_SEGMENT_SIZE ∣ (segAt s.segments i).position.y) ∧
    SNAKE_SEGMENT_SIZE ∣ s.food.position.x ∧ SNAKE_SEGMENT_SIZE ∣ s.food.position.y := by
  obtain ⟨-, -, -, i4, -⟩ := reachable_body E s h
  obtain ⟨-, -, -, -, f5, f6⟩ := reachable_food E s h
  refine ⟨fun i hi => ?_, Int.dvd_of_emod_eq_zero f5, Int.dvd_of_emod_eq_zero f6⟩
  obtain ⟨-, a1, a2⟩ := i4 i hi
  exact ⟨Int.dvd_of_emod_eq_zero a1, Int.dvd_of_emod_eq_zero a2⟩

/-- C13 at a concrete input: the straight run after 30 ticks. -/
theorem C13_witness :
    Reachable sampleEnv (straightRun 30) ∧
    ((∀ i : Nat, (i : Int) < (straightRun 30).length →
        SNAKE_SEGMENT_SIZE ∣ (segAt (straightRun 30).segments i).position.x ∧
        SNAKE_SEGMENT_SIZE ∣ (segAt (straightRun 30).segments i).position.y) ∧
      SNAKE_SEGMENT_SIZE ∣ (straightRun 30).food.position.x ∧
      SNAKE_SEGMENT_SIZE ∣ (straightRun 30).food.position.y) :=
  ⟨straightRun_reachable 30,
    C13_grid_alignment sampleEnv (straightRun 30) (straightRun_reachable 30)⟩

/-- C15. Move with growth: when the game is on, `length = n < 100`, the move is due, the
candidate head hits neither wall nor body and the active food lies on it, `player_update`
returns length `n + 1`, segment 0 on the candidate head, every segment `i` with
`1 ≤ i ≤ n` active at the position segment `i - 1` had before the call, and an active
food. -/
theorem C15_move_with_growth (E : Env) (s : GameState) (input : Int)
    (currentTime : Nat) (rng : Nat → Nat)
    (hplay : s.gameOver = false) (hsmall : s.length < MAX_SNAKE_LENGTH)
    (hdue : due s currentTime)
    (hwall : check_collision_with_walls (candidate E s input) = false)
    (hself : check_collision_with_self s (candidate E s input) = false)
    (hact : s.food.active = true) (hpos : s.food.position = candidate E s input) :
    let s' := player_update E s input currentTime rng
    s'.length = s.length + 1 ∧
    (segAt s'.segments 0).position = candidate E s input ∧
    (∀ i : Nat, 1 ≤ i → (i : Int) ≤ s.length →
      (segAt s'.segments i).active = true ∧
      (segAt s'.segments i).position = (segAt s.segments (i - 1)).position) ∧
    s'.food.active = true := by
  intro s'
  have hs' : s' = _ :=
    player_update_growing E s input currentTime rng hplay hsmall hdue hwall hself hact hpos
  have hsmall' : s.length < 100 := hsmall
  have hseg : s'.segments = setPos (grow_body s.length.toNat s.segments) 0 (candidate E s input) := by
    rw [hs']; rfl
  refine ⟨by rw [hs']; rfl, ?_, ?_, by rw [hs']; rfl⟩
  · rw [hseg, segAt_setPos, if_pos ⟨rfl, by decide⟩]
  · intro i h1 h2
    rw [hseg, segAt_setPos, if_neg (by omega), segAt_grow_body, if_pos (by omega)]
    exact ⟨rfl, rfl⟩

/-- C15 at a concrete input: the start state, whose food lies one cell ahead of the head. -/
theorem C15_witness :
    (startState.gameOver = false ∧ startState.length < MAX_SNAKE_LENGTH ∧
      due startState 1000 ∧
      check_collision_with_walls (candidate sampleEnv startState (-1)) = false ∧
      check_collision_with_self startState (candidate sampleEnv startState (-1)) = false ∧
      startState.food.active = true ∧
      startState.food.position = candidate sampleEnv startState (-1)) ∧
    (let s' := player_update sampleEnv startState (-1) 1000 (rowDraws 20)
     s'.length = startState.length + 1 ∧
     (segAt s'.segments 0).position = candidate sampleEnv startState (-1) ∧
     (∀ i : Nat, 1 ≤ i → (i : Int) ≤ startState.length →
       (segAt s'.segments i).active = true ∧
       (segAt s'.segments i).position = (segAt startState.segments (i - 1)).position) ∧
     s'.food.active = true) :=
  ⟨⟨by decide, by decide, by decide, by decide, by decide, by decide, by decide⟩,
    C15_move_with_growth sampleEnv startState (-1) 1000 (rowDraws 20)
      (by decide) (by decide) (by decide) (by decide) (by decide) (by decide) (by decide)⟩

/-- C16. Food spawn algorithm: for every state and every stream of draws, candidate
number `k` is `((r mod 40) * 8, (r' mod 30) * 8)` for the draws `r`, `r'` number `2k` and
`2k + 1`; `spawn_food` stops after `k + 1 ≤ 100` attempts on candidate `k`, where every
earlier candidate sits on a segment with index below `length` and candidate `k` sits on
none of them or is the 100th; afterwards the food is active, lies inside the field, and no
field other than the food has changed. -/
theorem C16_food_spawn_algorithm (E : Env) (s : GameState) (rng : Nat → Nat) :
    (∀ k, foodCandidate rng k =
      ⟨((rng (2 * k) : Int) % 40) * 8, ((rng (2 * k + 1) : Int) % 30) * 8⟩) ∧
    ∃ k, k < 100 ∧ (spawn_food_result s rng).2 = k + 1 ∧
      (spawn_food E s rng).food.position = foodCandidate rng k ∧
      (∀ j, j < k → ∃ i : Nat, (i : Int) < s.length ∧
        (segAt s.segments i).position = foodCandidate rng j) ∧
      ((∀ i : Nat, (i : Int) < s.length →
          (segAt s.segments i).position ≠ foodCandidate rng k) ∨ k = 99) ∧
      (spawn_food E s rng).food.active = true ∧
      (0 ≤ (spawn_food E s rng).food.position.x ∧
        (spawn_food E s rng).food.position.x < SCREEN_SIZE_X ∧
        0 ≤ (spawn_food E s rng).food.position.y ∧
        (spawn_food E s rng).food.position.y < SCREEN_SIZE_Y) ∧
      spawn_food E s rng = { s with food := (spawn_food E s rng).food } := by
  refine ⟨fun k => rfl, ?_⟩
  obtain ⟨k, hk, hr, hbefore, hlast⟩ := spawn_food_result_spec s rng
  have hp : (spawn_food E s rng).food.position = foodCandidate rng k := by
    show (spawn_food_result s rng).1 = _
    rw [hr]
  obtain ⟨g1, g2, g3, g4, -, -⟩ := foodCandidate_grid rng k
  refine ⟨k, hk, by rw [hr], hp, ?_, ?_, rfl, ?_, rfl⟩
  · intro j hj
    exact (hitsSnake_iff s _).1 (hbefore j hj)
  · rcases hlast with h | h
    · left
      intro i hi he
      have := (hitsSnake_iff s _).2 ⟨i, hi, he⟩
      rw [h] at this
      exact Bool.false_ne_true this
    · exact Or.inr h
  · rw [hp]
    exact ⟨g1, g2, g3, g4⟩

/-- C17 as stated fails: in the straight run after 40 ticks (level 4, nine items eaten,
length 21) the next tick eats the tenth item; it sets `gameWon`, and it also increments
`length` and spawns a new, active food. -/
theorem C17_counterexample :
    ((straightRun 40).gameOver = false ∧ (straightRun 40).level = 4 ∧
      (straightRun 40).foodEaten = 9 ∧ due (straightRun 40) 41000 ∧
      check_collision_with_walls (candidate sampleEnv (straightRun 40) (-1)) = false ∧
      check_collision_with_self (straightRun 40) (candidate sampleEnv (straightRun 40) (-1)) =
        false ∧
      (straightRun 40).food.active = true ∧
      (straightRun 40).food.position = candidate sampleEnv (straightRun 40) (-1)) ∧
    ((player_update sampleEnv (straightRun 40) (-1) 41000 (straightDraws 41)).gameWon = true ∧
      (player_update sampleEnv (straightRun 40) (-1) 41000 (straightDraws 41)).length =
        (straightRun 40).length + 1 ∧
      (player_update sampleEnv (straightRun 40) (-1) 41000 (straightDraws 41)).food.active =
        true) :=
  ⟨straightRun_winning_tick.1, straightRun_winning_tick.2⟩

/-- C17, amended. When the game is on, `level = 4`, `foodEaten = 9`, the move is due and
the snake eats the food without colliding, `player_update` sets `gameWon`, raises level to
5 and puts foodEaten back to 0, and then grows as on any other eating tick: with
`length < 100` the length is incremented and a new, active food is spawned; at full length
the length stays and the food stays inactive. -/
theorem C17_winning_tick_amended (E : Env) (s : GameState) (input : Int)
    (currentTime : Nat) (rng : Nat → Nat)
    (hplay : s.gameOver = false) (hlevel : s.level = 4) (heaten : s.foodEaten = 9)
    (hdue : due s currentTime)
    (hwall : check_collision_with_walls (candidate E s input) = false)
    (hself : check_collision_with_self s (candidate E s input) = false)
    (hact : s.food.active = true) (hpos : s.food.position = candidate E s input) :
    let s' := player_update E s input currentTime rng
    s'.gameWon = true ∧ s'.level = 5 ∧ s'.foodEaten = 0 ∧
    (s.length < MAX_SNAKE_LENGTH → s'.length = s.length + 1 ∧ s'.food.active = true) ∧
    (¬ s.length < MAX_SNAKE_LENGTH → s'.length = s.length ∧ s'.food.active = false) := by
  intro s'
  have hc := player_update_counters E s input currentTime rng
  have hcs := player_update_cases E s input currentTime rng
  simp only at hc hcs
  have hcand : check_collision_with_walls (candidate E s input) = true ∨
      check_collision_with_self s (candidate E s input) = true → False := by
    rintro (h | h)
    · rw [hwall] at h; exact Bool.false_ne_true h
    · rw [hself] at h; exact Bool.false_ne_true h
  rcases hcs with ⟨h, -⟩ | ⟨-, h, -⟩ | ⟨-, -, h, -⟩ | ⟨-, -, -, -, h, -⟩ | ⟨-, -, -, -, -, -, h⟩
  · rw [hplay] at h; exact absurd h Bool.false_ne_true
  · exact absurd hdue h
  · exact absurd h hcand
  · exact absurd ⟨hact, hpos⟩ h
  · have hct := eat_food_counters (commit { s with nextDirection := committed E s input } currentTime)
    have hfood : (eat_food (commit { s with nextDirection := committed E s input } currentTime)).food = { s.food with active := false } :=
      (eat_food_frame _).2.2.2.2.2.2.2.2.2
    have hlen : (eat_food (commit { s with nextDirection := committed E s input } currentTime)).length = s.length :=
      (eat_food_frame _).2.2.2.2.2.2.1
    have e4 : s'.foodEaten = (eat_food (commit { s with nextDirection := committed E s input } currentTime)).foodEaten := by
      show (player_update E s input currentTime rng).foodEaten = _
      rw [h]; split_ifs <;> rfl
    have e5 : s'.level = (eat_food (commit { s with nextDirection := committed E s input } currentTime)).level := by
      show (player_update E s input currentTime rng).level = _
      rw [h]; split_ifs <;> rfl
    have e6 : s'.gameWon = (eat_food (commit { s with nextDirection := committed E s input } currentTime)).gameWon := by
      show (player_update E s input currentTime rng).gameWon = _
      rw [h]; split_ifs <;> rfl
    have hfe : (commit { s with nextDirection := committed E s input } currentTime).foodEaten = 9 := heaten
    have hlv : (commit { s with nextDirection := committed E s input } currentTime).level = 4 := hlevel
    rcases hct with ⟨d0, -⟩ | ⟨-, d1, d2, d3⟩
    · rw [hfe] at d0; omega
    · rw [hlv] at d2 d3
      refine ⟨?_, by rw [e5, d2]; rfl, by rw [e4, d1], ?_, ?_⟩
      · rw [e6, d3]; simp
      · intro hl
        show (player_update E s input currentTime rng).length = _ ∧
          (player_update E s input currentTime rng).food.active = _
        rw [h, if_pos hl]
        exact ⟨rfl, rfl⟩
      · intro hl
        show (player_update E s input currentTime rng).length = _ ∧
          (player_update E s input currentTime rng).food.active = _
        rw [h, if_neg hl]
        refine ⟨hlen, ?_⟩
        show (eat_food (commit { s with nextDirection := committed E s input } currentTime)).food.active = false
        rw [hfood]

/-- C17 (amended) at a concrete input: the straight run after 40 ticks. -/
theorem C17_witness :
    ((straightRun 40).gameOver = false ∧ (straightRun 40).level = 4 ∧
      (straightRun 40).foodEaten = 9 ∧ due (straightRun 40) 41000 ∧
      check_collision_with_walls (candidate sampleEnv (straightRun 40) (-1)) = false ∧
      check_collision_with_self (straightRun 40) (candidate sampleEnv (straightRun 40) (-1)) =
        false ∧
      (straightRun 40).food.active = true ∧
      (straightRun 40).food.position = candidate sampleEnv (straightRun 40) (-1)) ∧
    (let s' := player_update sampleEnv (straightRun 40) (-1) 41000 (straightDraws 41)
     s'.gameWon = true ∧ s'.level = 5 ∧ s'.foodEaten = 0 ∧
     ((straightRun 40).length < MAX_SNAKE_LENGTH →
       s'.length = (straightRun 40).length + 1 ∧ s'.food.active = true) ∧
     (¬ (straightRun 40).length < MAX_SNAKE_LENGTH →
       s'.length = (straightRun 40).length ∧ s'.food.active = false)) :=
  ⟨straightRun_winning_tick.1,
    C17_winning_tick_amended sampleEnv (straightRun 40) (-1) 41000 (straightDraws 41)
      straightRun_winning_tick.1.1 straightRun_winning_tick.1.2.1
      straightRun_winning_tick.1.2.2.1 straightRun_winning_tick.1.2.2.2.1
      straightRun_winning_tick.1.2.2.2.2.1 straightRun_winning_tick.1.2.2.2.2.2.1
      straightRun_winning_tick.1.2.2.2.2.2.2.1 straightRun_winning_tick.1.2.2.2.2.2.2.2⟩

/-- C18, evaluated on the code: the first tick from the start state is an eating tick with
length 3; with draws 19, 15 the first candidate of `spawn_food` is (152,120), which the
check accepts (it is on none of the cells `0 .. 3` of the grown state, attempt 1 of 100);
the head is written to (152,120) afterwards, so the state the tick returns has its active
food on the active head segment. -/
theorem C18_food_lands_on_new_head :
    (startState.gameOver = false ∧ startState.length < MAX_SNAKE_LENGTH ∧
      due startState 1000 ∧
      check_collision_with_walls (candidate sampleEnv startState (-1)) = false ∧
      check_collision_with_self startState (candidate sampleEnv startState (-1)) = false ∧
      startState.food.active = true ∧
      startState.food.position = candidate sampleEnv startState (-1)) ∧
    (hitsSnake (grown sampleEnv startState (-1) 1000) (foodCandidate (rowDraws 19) 0) = false ∧
      spawn_food_result (grown sampleEnv startState (-1) 1000) (rowDraws 19) =
        (foodCandidate (rowDraws 19) 0, 1)) ∧
    ((player_update sampleEnv startState (-1) 1000 (rowDraws 19)).food.active = true ∧
      (player_update sampleEnv startState (-1) 1000 (rowDraws 19)).food.position = ⟨152, 120⟩ ∧
      (segAt (player_update sampleEnv startState (-1) 1000 (rowDraws 19)).segments 0).position =
        ⟨152, 120⟩ ∧
      (segAt (player_update sampleEnv startState (-1) 1000 (rowDraws 19)).segments 0).active =
        true ∧
      (0 : Int) < (player_update sampleEnv startState (-1) 1000 (rowDraws 19)).length) := by
  decide

/-- C19. The snake stays on the field: in every reachable state every segment with index
below `length` has `0 ≤ x < 320` and `0 ≤ y < 240`, i.e. `check_collision_with_walls` is
false for its position. -/
theorem C19_snake_stays_on_field (E : Env) (s : GameState) (h : Reachable E s) :
    ∀ i : Nat, (i : Int) < s.length →
      (0 ≤ (segAt s.segments i).position.x ∧ (segAt s.segments i).position.x < SCREEN_SIZE_X ∧
        0 ≤ (segAt s.segments i).position.y ∧ (segAt s.segments i).position.y < SCREEN_SIZE_Y) ∧
      check_collision_with_walls (segAt s.segments i).position = false := by
  obtain ⟨-, -, -, i4, -⟩ := reachable_body E s h
  intro i hi
  exact ⟨(walls_false_iff _).1 (i4 i hi).1, (i4 i hi).1⟩

/-- C19 at a concrete input: the straight run after 30 ticks. -/
theorem C19_witness :
    Reachable sampleEnv (straightRun 30) ∧
    ∀ i : Nat, (i : Int) < (straightRun 30).length →
      (0 ≤ (segAt (straightRun 30).segments i).position.x ∧
        (segAt (straightRun 30).segments i).position.x < SCREEN_SIZE_X ∧
        0 ≤ (segAt (straightRun 30).segments i).position.y ∧
        (segAt (straightRun 30).segments i).position.y < SCREEN_SIZE_Y) ∧
      check_collision_with_walls (segAt (straightRun 30).segments i).position = false :=
  ⟨straightRun_reachable 30,
    C19_snake_stays_on_field sampleEnv (straightRun 30) (straightRun_reachable 30)⟩

/-- C20. The snake never overlaps itself: in every reachable state the positions of the
segments with index below `length` are pairwise different. -/
theorem C20_snake_never_overlaps (E : Env) (s : GameState) (h : Reachable E s) :
    ∀ i j : Nat, (i : Int) < s.length → (j : Int) < s.length → i ≠ j →
      (segAt s.segments i).position ≠ (segAt s.segments j).position :=
  (reachable_body E s h).2.2.2.2

/-- C20 at a concrete input: the straight run after 30 ticks. -/
theorem C20_witness :
    Reachable sampleEnv (straightRun 30) ∧
    ∀ i j : Nat, (i : Int) < (straightRun 30).length → (j : Int) < (straightRun 30).length →
      i ≠ j →
      (segAt (straightRun 30).segments i).position ≠ (segAt (straightRun 30).segments j).position :=
  ⟨straightRun_reachable 30,
    C20_snake_never_overlaps sampleEnv (straightRun 30) (straightRun_reachable 30)⟩

end Snake
